import Mathlib

/-!
Proxy-Tracker: the `/check` microservice (`main.go`)

A shallow embedding of `checkIPHandler` and `main` together with the parts of the Go
standard library they call (`net/url` query parsing, `net/http` response writing,
`encoding/json` string and integer encoding, `unicode/utf8` decoding, `time`, `log`),
written after the library sources of Go 1.23, and `net/url` with the limit of 10000 query
parameters that its later releases have.

* Go strings are byte sequences; they are lists of naturals, a byte being below 256. No
  theorem needs the bound.
* A handler run is a function from the state it can touch (its response writer, the log
  output, the routes of the default mux) to that state, with the effects it performs
  recorded in order; the two clock readings and the logger's date header are given by
  the environment.
* The server gives every request a response writer and a goroutine of its own; requests
  served at the same time are a step relation over goroutines that share the clock and
  the log output.
* What a client reads off a response is said with a decoder for JSON texts and with the
  well-formed byte sequences of UTF-8.
-/

namespace ProxyTracker

/-! ## Bytes and literals -/

/-- A Go string: an immutable sequence of bytes (each a natural number below 256). -/
abbrev GoString := List Nat

/-- The bytes of an ASCII literal of the Go source. -/
def lit (s : String) : GoString := s.data.map Char.toNat

/-! ## `unicode/utf8` -/

/-- The constant `utf8.RuneError`, U+FFFD. -/
def RuneError : Nat := 0xFFFD

/-- The table `first` of `unicode/utf8`: information about the first byte of a sequence.
`0xF0` is ASCII (`as`), `0xF1` is invalid (`xx`); otherwise the low three bits are the
size and the high four bits index `acceptRanges`. -/
def first (b : Nat) : Nat :=
  if b < 0x80 then 0xF0
  else if b < 0xC2 then 0xF1
  else if b < 0xE0 then 0x02
  else if b = 0xE0 then 0x13
  else if b < 0xED then 0x03
  else if b = 0xED then 0x23
  else if b < 0xF0 then 0x03
  else if b = 0xF0 then 0x34
  else if b < 0xF4 then 0x04
  else if b = 0xF4 then 0x44
  else 0xF1

/-- The table `acceptRanges` of `unicode/utf8`: the range allowed for the second byte. -/
def acceptRanges (i : Nat) : Nat × Nat :=
  match i with
  | 0 => (0x80, 0xBF)
  | 1 => (0xA0, 0xBF)
  | 2 => (0x80, 0x9F)
  | 3 => (0x90, 0xBF)
  | 4 => (0x80, 0x8F)
  | _ => (0, 0)

/-- Go `utf8.DecodeRuneInString`: the first rune of `s` and its width in bytes;
`(RuneError, 1)` for an invalid encoding, `(RuneError, 0)` for the empty string. -/
def DecodeRuneInString (s : GoString) : Nat × Nat :=
  match s with
  | [] => (RuneError, 0)
  | s0 :: t =>
    let x := first s0
    if x ≥ 0xF0 then
      -- mask := rune(x) << 31 >> 31 selects RuneError for `xx` and the byte for `as`
      (if x &&& 1 = 1 then RuneError else s0, 1)
    else
      let sz := x &&& 7
      let accept := acceptRanges (x >>> 4)
      if s.length < sz then (RuneError, 1)
      else
        match t with
        | [] => (RuneError, 1)
        | s1 :: t1 =>
          if s1 < accept.1 ∨ accept.2 < s1 then (RuneError, 1)
          else if sz ≤ 2 then (((s0 &&& 0x1F) <<< 6) ||| (s1 &&& 0x3F), 2)
          else
            match t1 with
            | [] => (RuneError, 1)
            | s2 :: t2 =>
              if s2 < 0x80 ∨ 0xBF < s2 then (RuneError, 1)
              else if sz ≤ 3 then
                (((s0 &&& 0x0F) <<< 12) ||| ((s1 &&& 0x3F) <<< 6) ||| (s2 &&& 0x3F), 3)
              else
                match t2 with
                | [] => (RuneError, 1)
                | s3 :: _ =>
                  if s3 < 0x80 ∨ 0xBF < s3 then (RuneError, 1)
                  else
                    (((s0 &&& 0x07) <<< 18) ||| ((s1 &&& 0x3F) <<< 12)
                      ||| ((s2 &&& 0x3F) <<< 6) ||| (s3 &&& 0x3F), 4)

/-- Go `utf8.AppendRune` (as used by JSON decoders to write a code point): the UTF-8
encoding of `r`; surrogates and out-of-range values are written as U+FFFD. -/
def AppendRune (r : Nat) : GoString :=
  if r ≤ 0x7F then [r]
  else if r ≤ 0x7FF then [0xC0 ||| (r >>> 6), 0x80 ||| (r &&& 0x3F)]
  else if r > 0x10FFFF ∨ (0xD800 ≤ r ∧ r ≤ 0xDFFF) then [0xEF, 0xBF, 0xBD]
  else if r ≤ 0xFFFF then
    [0xE0 ||| (r >>> 12), 0x80 ||| ((r >>> 6) &&& 0x3F), 0x80 ||| (r &&& 0x3F)]
  else
    [0xF0 ||| (r >>> 18), 0x80 ||| ((r >>> 12) &&& 0x3F),
     0x80 ||| ((r >>> 6) &&& 0x3F), 0x80 ||| (r &&& 0x3F)]

/-! ## `encoding/json`: encoding -/

/-- The digits `hex` of `encoding/json`. -/
def hex (n : Nat) : Nat := (lit "0123456789abcdef").getD n 0

/-- The table `htmlSafeSet` of `encoding/json`: the ASCII bytes written without escaping
when HTML escaping is on (space to DEL except `"`, `&`, `<`, `>` and the backslash). -/
def htmlSafeSet (b : Nat) : Bool :=
  decide (0x20 ≤ b ∧ b < 0x80 ∧ b ≠ 0x22 ∧ b ≠ 0x26 ∧ b ≠ 0x3C ∧ b ≠ 0x3E ∧ b ≠ 0x5C)

/-- The table `safeSet` of `encoding/json`: the ASCII bytes written without escaping
when HTML escaping is off (space to DEL except `"` and the backslash). -/
def safeSet (b : Nat) : Bool :=
  decide (0x20 ≤ b ∧ b < 0x80 ∧ b ≠ 0x22 ∧ b ≠ 0x5C)

/-- The escape written by `appendString` for an ASCII byte outside the safe set. -/
def escapeByte (b : Nat) : GoString :=
  if b = 0x5C ∨ b = 0x22 then [0x5C, b]
  else if b = 0x08 then [0x5C, 0x62]
  else if b = 0x0C then [0x5C, 0x66]
  else if b = 0x0A then [0x5C, 0x6E]
  else if b = 0x0D then [0x5C, 0x72]
  else if b = 0x09 then [0x5C, 0x74]
  else [0x5C, 0x75, 0x30, 0x30, hex (b >>> 4), hex (b &&& 0xF)]

/-- The loop of `appendString` of `encoding/json` over the rest of the source string.
Each iteration consumes at least one byte, so `fuel` = length of the string is enough. -/
def appendStringLoop (escapeHTML : Bool) : Nat → GoString → GoString
  | 0, _ => []
  | _ + 1, [] => []
  | fuel + 1, b :: rest =>
    if b < 0x80 then
      if htmlSafeSet b || (!escapeHTML && safeSet b) then
        b :: appendStringLoop escapeHTML fuel rest
      else
        escapeByte b ++ appendStringLoop escapeHTML fuel rest
    else
      let src := b :: rest
      let cs := DecodeRuneInString (src.take 4)
      if cs.1 = RuneError ∧ cs.2 = 1 then
        lit "\\ufffd" ++ appendStringLoop escapeHTML fuel (src.drop cs.2)
      else if cs.1 = 0x2028 ∨ cs.1 = 0x2029 then
        lit "\\u202" ++ hex (cs.1 &&& 0xF) :: appendStringLoop escapeHTML fuel (src.drop cs.2)
      else
        src.take cs.2 ++ appendStringLoop escapeHTML fuel (src.drop cs.2)

/-- Go `appendString` of `encoding/json`: `src` as a quoted JSON string. -/
def appendString (src : GoString) (escapeHTML : Bool) : GoString :=
  0x22 :: (appendStringLoop escapeHTML src.length src ++ [0x22])

/-- Go `strconv.FormatUint` in base 10 (the digit loop of `formatBits`): the decimal
digits of `u` in front of `acc`. An `int64` has at most 19 digits, so 20 steps suffice. -/
def formatBits : Nat → Nat → GoString → GoString
  | 0, _, acc => acc
  | fuel + 1, u, acc =>
    if u < 10 then (0x30 + u) :: acc
    else formatBits fuel (u / 10) ((0x30 + u % 10) :: acc)

/-- Go `strconv.AppendInt(_, i, 10)`: the decimal text of an `int64`. -/
def FormatInt (i : Int) : GoString :=
  if i < 0 then 0x2D :: formatBits 20 i.natAbs [] else formatBits 20 i.toNat []

/-- The value of a struct field as `encoding/json` sees it (the two kinds used here). -/
inductive FieldValue where
  | string (s : GoString)
  | int64 (i : Int)
  deriving DecidableEq

/-- The encoder chosen for a field value: `stringEncoder` or `intEncoder`. -/
def encodeValue (escapeHTML : Bool) : FieldValue → GoString
  | .string s => appendString s escapeHTML
  | .int64 i => FormatInt i

/-- The field loop of `structEncoder.encode`: `{` before the first field and `,` before
each later one, then the quoted name, `:` and the value. -/
def encodeFields (escapeHTML : Bool) : Bool → List (GoString × FieldValue) → GoString
  | _, [] => []
  | isFirst, (name, v) :: fs =>
    (if isFirst then 0x7B else 0x2C) :: (appendString name escapeHTML ++ 0x3A ::
      (encodeValue escapeHTML v ++ encodeFields escapeHTML false fs))

/-- Go `structEncoder.encode`: a struct as a JSON object, fields in declaration order. -/
def structEncode (escapeHTML : Bool) (fields : List (GoString × FieldValue)) : GoString :=
  match fields with
  | [] => lit "\x7b\x7d"
  | _ => encodeFields escapeHTML true fields ++ [0x7D]

/-! ## `net/url`: the query string -/

/-- Go `ishex` of `net/url`. -/
def ishex (c : Nat) : Bool :=
  decide ((0x30 ≤ c ∧ c ≤ 0x39) ∨ (0x61 ≤ c ∧ c ≤ 0x66) ∨ (0x41 ≤ c ∧ c ≤ 0x46))

/-- Go `unhex` of `net/url`. -/
def unhex (c : Nat) : Nat :=
  if 0x30 ≤ c ∧ c ≤ 0x39 then c - 0x30
  else if 0x61 ≤ c ∧ c ≤ 0x66 then c - 0x61 + 10
  else if 0x41 ≤ c ∧ c ≤ 0x46 then c - 0x41 + 10
  else 0

/-- Go `url.QueryUnescape`: `%XX` becomes the byte `XX`, `+` becomes a space; a `%` not
followed by two hex digits is an error (`none`). -/
def QueryUnescape : GoString → Option GoString
  | [] => some []
  | c :: rest =>
    if c = 0x25 then
      match rest with
      | h :: l :: rest2 =>
        if ishex h ∧ ishex l then
          (QueryUnescape rest2).map (fun s => ((unhex h <<< 4) ||| unhex l) :: s)
        else none
      | _ => none
    else if c = 0x2B then (QueryUnescape rest).map (fun s => 0x20 :: s)
    else (QueryUnescape rest).map (fun s => c :: s)

/-- Go `strings.Cut(s, sep)` for a one-byte separator: the text before and after the
first `sep`, or `(s, "")` when there is none. -/
def Cut (sep : Nat) : GoString → GoString × GoString
  | [] => ([], [])
  | c :: rest => if c = sep then ([], rest) else ((c :: (Cut sep rest).1), (Cut sep rest).2)

/-- Go `url.Values`: a map from key to the list of its values. -/
abbrev Values := List (GoString × List GoString)

/-- The map lookup `m[key]` (the empty list when the key is absent). -/
def Values.lookup (m : Values) (key : GoString) : List GoString :=
  match m with
  | [] => []
  | (k, vs) :: m2 => if k = key then vs else Values.lookup m2 key

/-- The statement `m[key] = append(m[key], value)`. -/
def Values.add (m : Values) (key value : GoString) : Values :=
  match m with
  | [] => [(key, [value])]
  | (k, vs) :: m2 => if k = key then (k, vs ++ [value]) :: m2 else (k, vs) :: Values.add m2 key value

/-- Go `Values.Get`: the first value of the key, or the empty string. -/
def Values.Get (m : Values) (key : GoString) : GoString :=
  match m.lookup key with
  | [] => []
  | v :: _ => v

/-- The loop `for query != ""` of Go `parseQuery` of `net/url`: pairs are separated by
`&`; a pair with a `;`, an empty pair, or one whose key or value does not unescape, is
skipped. The error is dropped, as `URL.Query` drops it. Every iteration consumes a byte,
so `fuel` = length is enough. -/
def parseQueryLoop : Nat → Values → GoString → Values
  | 0, m, _ => m
  | _ + 1, m, [] => m
  | fuel + 1, m, c :: cs =>
    let query := c :: cs
    let key := (Cut 0x26 query).1
    let query2 := (Cut 0x26 query).2
    if 0x3B ∈ key then parseQueryLoop fuel m query2
    else if key = [] then parseQueryLoop fuel m query2
    else
      match QueryUnescape (Cut 0x3D key).1 with
      | none => parseQueryLoop fuel m query2
      | some k =>
        match QueryUnescape (Cut 0x3D key).2 with
        | none => parseQueryLoop fuel m query2
        | some v => parseQueryLoop fuel (m.add k v) query2

/-- The constant `defaultMaxParams` of `net/url`. -/
def defaultMaxParams : Nat := 10000

/-- Go `urlParamsWithinMax` of `net/url`, with the setting `urlmaxqueryparams` left at its
default: whether the number of parameters is within the limit. -/
def urlParamsWithinMax (params : Nat) : Bool := decide (params ≤ defaultMaxParams)

/-- Go `parseQuery` of `net/url`: a query with more parameters than the limit (one more
than its `&` bytes) is refused and nothing of it is parsed; any other query is read pair
by pair. -/
def parseQuery (m : Values) (query : GoString) : Values :=
  if urlParamsWithinMax (query.count 0x26 + 1) then parseQueryLoop query.length m query
  else m

/-- The part of Go `*http.Request` a handler can look at. -/
structure Request where
  Method : GoString
  RawQuery : GoString
  Body : GoString
  deriving DecidableEq

/-- Go `r.URL.Query()`: the parsed `RawQuery`, malformed pairs silently discarded, and
nothing at all for a query over the parameter limit. -/
def Request.Query (r : Request) : Values :=
  parseQuery [] r.RawQuery

/-! ## `net/http`: the response writer -/

/-- Go `http.Header`, restricted to single-valued keys. -/
abbrev Header := List (GoString × GoString)

/-- Go `Header.Del`. -/
def Header.Del (h : Header) (key : GoString) : Header :=
  h.filter (fun kv => kv.1 ≠ key)

/-- Go `Header.Set`: the key now has exactly this value. -/
def Header.Set (h : Header) (key value : GoString) : Header :=
  h.Del key ++ [(key, value)]

/-- Go `Header.Get`: the value of the key, or the empty string. -/
def Header.Get (h : Header) (key : GoString) : GoString :=
  match h with
  | [] => []
  | (k, v) :: h2 => if k = key then v else Header.Get h2 key

/-- The state of a Go `http.ResponseWriter`: the header map the handler edits, the
status code and the header snapshot sent with it (once `WriteHeader` has run), and the
body bytes written so far. -/
structure ResponseWriter where
  header : Header
  status : Option Nat
  sentHeader : Header
  body : GoString
  deriving DecidableEq

/-- The writer the server hands to a handler: nothing set, nothing sent. -/
def ResponseWriter.fresh : ResponseWriter := ⟨[], none, [], []⟩

/-- Go `ResponseWriter.WriteHeader`: sends the status code with the current header map;
a second call changes nothing. -/
def ResponseWriter.WriteHeader (w : ResponseWriter) (code : Nat) : ResponseWriter :=
  match w.status with
  | some _ => w
  | none => { w with status := some code, sentHeader := w.header }

/-- Go `ResponseWriter.Write`: calls `WriteHeader(http.StatusOK)` when no header was
written yet, then appends the data to the body. -/
def ResponseWriter.Write (w : ResponseWriter) (data : GoString) : ResponseWriter :=
  let w1 := w.WriteHeader 200
  { w1 with body := w1.body ++ data }

/-- Go `http.Error`: plain-text content type, the status code, then `fmt.Fprintln` of the
message (the message followed by a line feed). -/
def Error (w : ResponseWriter) (error : GoString) (code : Nat) : ResponseWriter :=
  let h := ((w.header.Del (lit "Content-Length")).Set (lit "Content-Type")
    (lit "text/plain; charset=utf-8")).Set (lit "X-Content-Type-Options") (lit "nosniff")
  let w1 := ({ w with header := h } : ResponseWriter).WriteHeader code
  w1.Write (error ++ [0x0A])

/-- Go `http.StatusBadRequest`. -/
def StatusBadRequest : Nat := 400

/-! ## `time` -/

/-- Wrap-around to the range of `int64`. -/
def wrapInt64 (x : Int) : Int := (x + 2 ^ 63) % 2 ^ 64 - 2 ^ 63

/-- Go `time.Millisecond` in nanoseconds. -/
def Millisecond : Int := 1000000

/-- Go `subMono` of `time`: the difference of two monotonic readings as a `Duration`,
saturating at the largest and smallest `Duration`. -/
def subMono (t u : Int) : Int :=
  let d := wrapInt64 (t - u)
  if d < 0 ∧ t > u then 2 ^ 63 - 1
  else if d > 0 ∧ t < u then -(2 ^ 63)
  else d

/-- Go `Duration.Milliseconds`: `int64(d) / 1e6`, integer division truncating to zero. -/
def Milliseconds (d : Int) : Int := d.tdiv 1000000

/-! ## `fmt` and `log` -/

/-- An operand of a `fmt` call. -/
inductive Arg where
  | str (s : GoString)
  | int (i : Int)
  | err (msg : GoString)
  deriving DecidableEq

/-- How the verbs `%s`, `%d` and `%v` print an operand: a string as its bytes, an integer
in decimal, an error as its message. -/
def Arg.render : Arg → GoString
  | .str s => s
  | .int i => FormatInt i
  | .err msg => msg

/-- Go `fmt.Sprintf` for formats whose verbs are `%s`, `%d` and `%v`, one per operand. -/
def Sprintf : GoString → List Arg → GoString
  | [], _ => []
  | [c], _ => [c]
  | c :: v :: rest, args =>
    if c = 0x25 then
      match args with
      | a :: args2 => a.render ++ Sprintf rest args2
      | [] => c :: Sprintf (v :: rest) []
    else c :: Sprintf (v :: rest) args

/-- What the standard logger writes for one call: its header (the date and time), the
message, and a line feed unless the message already ends in one (`Logger.output`). -/
def logOutput (hdr msg : GoString) : GoString :=
  hdr ++ msg ++ (if msg.getLast? = some 0x0A then [] else [0x0A])

/-! ## `main.go` -/

/-- The struct `CheckResponse` of `main.go`. -/
structure CheckResponse where
  IPAddress : GoString
  Status : GoString
  CheckTimeMs : Int
  deriving DecidableEq

/-- The fields of `CheckResponse` with their `json:"..."` names, in declaration order. -/
def CheckResponse.fields (r : CheckResponse) : List (GoString × FieldValue) :=
  [(lit "ip_address", .string r.IPAddress),
   (lit "status", .string r.Status),
   (lit "check_time_ms", .int64 r.CheckTimeMs)]

/-- Go `json.NewEncoder(w).Encode(v)`: the JSON text of the value (HTML escaping on, the
default of an `Encoder`) followed by a line feed, written to `w` in one `Write`. -/
def Encode (w : ResponseWriter) (v : CheckResponse) : ResponseWriter :=
  w.Write (structEncode true v.fields ++ [0x0A])

/-- What a handler does to the world outside its response writer, in program order. -/
inductive Effect where
  | logPrintf (msg : GoString)
  | timeNow
  | timeSleep (d : Int)
  | timeSince
  deriving DecidableEq

/-- What the environment gives one run of the handler: the header of the standard
logger and the monotonic clock readings at `time.Now()` and at `time.Since(...)`. -/
structure Env where
  logHeader : GoString
  now : Int
  later : Int
  deriving DecidableEq

/-- The program state a handler run can touch: its response writer, the log output
(standard error), the effects performed, and the one piece of package-level state of the
program, the routes of `http.DefaultServeMux`. -/
structure State where
  w : ResponseWriter
  stderr : GoString
  trace : List Effect
  routes : List (GoString × GoString)
  deriving DecidableEq

/-- The state in which the server calls a handler: a fresh writer and the given log
output and routes. -/
def State.start (stderr : GoString) (routes : List (GoString × GoString)) : State :=
  ⟨ResponseWriter.fresh, stderr, [], routes⟩

/-- The function `checkIPHandler` of `main.go` (lines 19 to 45). -/
def checkIPHandler (env : Env) (st : State) (r : Request) : State :=
  -- ip := r.URL.Query().Get("ip")
  let ip := r.Query.Get (lit "ip")
  if ip = [] then
    -- http.Error(w, "Missing 'ip' query parameter", http.StatusBadRequest); return
    { st with w := Error st.w (lit "Missing 'ip' query parameter") StatusBadRequest }
  else
    -- log.Printf("GO_HANDLER: Received check request for IP: %s", ip)
    let msg := Sprintf (lit "GO_HANDLER: Received check request for IP: %s") [.str ip]
    let stderr := st.stderr ++ logOutput env.logHeader msg
    -- startTime := time.Now(); time.Sleep(50 * time.Millisecond)
    let startTime := env.now
    -- duration := time.Since(startTime).Milliseconds()
    let duration := Milliseconds (subMono env.later startTime)
    let response : CheckResponse :=
      { IPAddress := ip, Status := lit "OK_ANONYMOUS", CheckTimeMs := duration }
    -- w.Header().Set("Content-Type", "application/json")
    let w1 := { st.w with header := st.w.header.Set (lit "Content-Type") (lit "application/json") }
    -- json.NewEncoder(w).Encode(response)
    { st with
      w := Encode w1 response
      stderr := stderr
      trace := st.trace ++ [.logPrintf msg, .timeNow, .timeSleep (50 * Millisecond), .timeSince] }

/-- How `http.ListenAndServe` ends: it serves forever, or it returns an error (it never
returns `nil`). -/
inductive ListenResult where
  | servesForever
  | fails (err : GoString)
  deriving DecidableEq

/-- The state of the process as `main` leaves it. -/
structure Process where
  routes : List (GoString × GoString)
  stdout : GoString
  stderr : GoString
  listenAddr : Option GoString
  exitStatus : Option Nat
  deriving DecidableEq

/-- The process before `main` runs. -/
def Process.init : Process := ⟨[], [], [], none, none⟩

/-- Go `log.Fatalf`: one log record, then `os.Exit(1)`. -/
def Fatalf (logHeader : GoString) (p : Process) (format : GoString) (args : List Arg) :
    Process :=
  { p with stderr := p.stderr ++ logOutput logHeader (Sprintf format args), exitStatus := some 1 }

/-- The function `main` of `main.go` (lines 47 to 54); `listen` is what
`http.ListenAndServe` does for an address, the handler is registered under its name. -/
def main (logHeader : GoString) (listen : GoString → ListenResult) (p : Process) : Process :=
  -- http.HandleFunc("/check", checkIPHandler)
  let p1 := { p with routes := p.routes ++ [(lit "/check", lit "checkIPHandler")] }
  let port : Int := 8081
  let p2 := { p1 with
    stdout := p1.stdout ++ Sprintf (lit "Go microservice listening on http://localhost:%d\n") [.int port] }
  let addr := Sprintf (lit ":%d") [.int port]
  let p3 := { p2 with listenAddr := some addr }
  match listen addr with
  | .fails err => Fatalf logHeader p3 (lit "Failed to start Go microservice: %v") [.err err]
  | .servesForever => p3

/-! ## Reading a response: JSON decoding and well-formed UTF-8

The claims speak of the fields of the JSON body "once decoded" and of strings that are
valid UTF-8. These definitions say what that means: a decoder for JSON texts that are one
object with string and integer members (RFC 8259, the escapes read as `encoding/json`
reads them), and the well-formed byte sequences of UTF-8 (RFC 3629). -/

/-- A decoded JSON value, of the kinds a response holds. -/
inductive JSONValue where
  | str (s : GoString)
  | num (i : Int)
  deriving DecidableEq

/-- The value of a hexadecimal digit. -/
def fromHex (c : Nat) : Option Nat :=
  if 0x30 ≤ c ∧ c ≤ 0x39 then some (c - 0x30)
  else if 0x61 ≤ c ∧ c ≤ 0x66 then some (c - 0x61 + 10)
  else if 0x41 ≤ c ∧ c ≤ 0x46 then some (c - 0x41 + 10)
  else none

/-- The code unit written `\uXXXX` with the four given digits. -/
def getu4 (h1 h2 h3 h4 : Nat) : Option Nat :=
  match fromHex h1, fromHex h2, fromHex h3, fromHex h4 with
  | some a, some b, some c, some d => some (((a * 16 + b) * 16 + c) * 16 + d)
  | _, _, _, _ => none

/-- The byte a two-character escape stands for. -/
def simpleEscape (e : Nat) : Option Nat :=
  if e = 0x22 ∨ e = 0x5C ∨ e = 0x2F then some e
  else if e = 0x62 then some 0x08
  else if e = 0x66 then some 0x0C
  else if e = 0x6E then some 0x0A
  else if e = 0x72 then some 0x0D
  else if e = 0x74 then some 0x09
  else none

/-- Puts decoded bytes in front of the rest of a decoded string. -/
def prepend (pre : GoString) : Option (GoString × GoString) → Option (GoString × GoString)
  | some (s, rest) => some (pre ++ s, rest)
  | none => none

/-- The code unit of an escape `\uXXXX` at the head of the input, if there is one. -/
def escapeAhead : GoString → Option Nat
  | b :: u :: l1 :: l2 :: l3 :: l4 :: _ =>
    if b = 0x5C ∧ u = 0x75 then getu4 l1 l2 l3 l4 else none
  | _ => none

/-- Decodes the inside of a JSON string up to its closing quote: the decoded bytes and
the input after the quote. An escape `\uXXXX` gives the UTF-8 bytes of the code point, a
surrogate pair gives one code point and a lone surrogate gives U+FFFD. Each step consumes
input, so `fuel` = length of the input is enough. -/
def unquoteLoop : Nat → GoString → Option (GoString × GoString)
  | 0, _ => none
  | _ + 1, [] => none
  | fuel + 1, c :: rest =>
    if c = 0x22 then some ([], rest)
    else if c = 0x5C then
      match rest with
      | [] => none
      | e :: rest1 =>
        if e = 0x75 then
          match rest1 with
          | h1 :: h2 :: h3 :: h4 :: rest2 =>
            match getu4 h1 h2 h3 h4 with
            | none => none
            | some rr =>
              if 0xD800 ≤ rr ∧ rr < 0xE000 then
                match escapeAhead rest2 with
                | some rr1 =>
                  if rr < 0xDC00 ∧ 0xDC00 ≤ rr1 ∧ rr1 < 0xE000 then
                    prepend (AppendRune ((((rr - 0xD800) <<< 10) ||| (rr1 - 0xDC00)) + 0x10000))
                      (unquoteLoop fuel (rest2.drop 6))
                  else prepend (AppendRune RuneError) (unquoteLoop fuel rest2)
                | none => prepend (AppendRune RuneError) (unquoteLoop fuel rest2)
              else prepend (AppendRune rr) (unquoteLoop fuel rest2)
          | _ => none
        else
          match simpleEscape e with
          | some b => prepend [b] (unquoteLoop fuel rest1)
          | none => none
    else if c < 0x20 then none
    else prepend [c] (unquoteLoop fuel rest)

/-- Decodes a JSON string at the head of the input. -/
def parseString : GoString → Option (GoString × GoString)
  | [] => none
  | c :: rest => if c = 0x22 then unquoteLoop rest.length rest else none

/-- Whether the byte is a decimal digit. -/
def isDigit (c : Nat) : Bool := decide (0x30 ≤ c ∧ c ≤ 0x39)

/-- Reads decimal digits: their value after `acc`, and the input after them. -/
def parseDigits : GoString → Nat → Nat × GoString
  | [], acc => (acc, [])
  | c :: rest, acc =>
    if isDigit c then parseDigits rest (acc * 10 + (c - 0x30)) else (acc, c :: rest)

/-- Whether a number goes on with a fraction or an exponent. -/
def startsFraction : GoString → Bool
  | [] => false
  | c :: _ => decide (c = 0x2E ∨ c = 0x65 ∨ c = 0x45)

/-- Whether the digits start with a zero that another digit follows, which JSON does not
allow. -/
def leadingZero : GoString → Bool
  | c :: d :: _ => decide (c = 0x30) && isDigit d
  | _ => false

/-- Decodes a JSON integer (an optional minus sign and digits with no leading zero, no
fraction or exponent) at the head of the input. -/
def parseInt : GoString → Option (Int × GoString)
  | [] => none
  | c :: rest =>
    if c = 0x2D then
      match rest with
      | [] => none
      | d :: _ =>
        if isDigit d && !leadingZero rest then
          let r := parseDigits rest 0
          if startsFraction r.2 then none else some (-(r.1 : Int), r.2)
        else none
    else if isDigit c && !leadingZero (c :: rest) then
      let r := parseDigits (c :: rest) 0
      if startsFraction r.2 then none else some ((r.1 : Int), r.2)
    else none

/-- Decodes a JSON value at the head of the input: a string or an integer. -/
def parseValue : GoString → Option (JSONValue × GoString)
  | [] => none
  | c :: rest =>
    if c = 0x22 then
      match parseString (c :: rest) with
      | some (s, r) => some (.str s, r)
      | none => none
    else
      match parseInt (c :: rest) with
      | some (i, r) => some (.num i, r)
      | none => none

/-- Drops JSON white space (space, tab, line feed, carriage return). -/
def skipWS : GoString → GoString
  | [] => []
  | c :: rest => if c = 0x20 ∨ c = 0x09 ∨ c = 0x0A ∨ c = 0x0D then skipWS rest else c :: rest

/-- Decodes the members of an object after its `{`, up to the closing `}`. Each member
consumes input, so `fuel` = length of the input is enough. -/
def parseMembers : Nat → GoString → Option (List (GoString × JSONValue) × GoString)
  | 0, _ => none
  | fuel + 1, s =>
    match parseString (skipWS s) with
    | none => none
    | some (key, s1) =>
      match skipWS s1 with
      | [] => none
      | c :: s2 =>
        if c = 0x3A then
          match parseValue (skipWS s2) with
          | none => none
          | some (v, s3) =>
            match skipWS s3 with
            | [] => none
            | d :: s4 =>
              if d = 0x2C then
                match parseMembers fuel s4 with
                | some (ms, r) => some ((key, v) :: ms, r)
                | none => none
              else if d = 0x7D then some ([(key, v)], s4)
              else none
        else none

/-- Decodes a JSON text that is a single object: its members in the order written; `none`
when the text is anything else. -/
def parseObject (s : GoString) : Option (List (GoString × JSONValue)) :=
  match skipWS s with
  | [] => none
  | c :: s1 =>
    if c = 0x7B then
      match skipWS s1 with
      | [] => none
      | d :: s2 =>
        if d = 0x7D then (if skipWS s2 = [] then some [] else none)
        else
          match parseMembers s.length (d :: s2) with
          | some (ms, r) => if skipWS r = [] then some ms else none
          | none => none
    else none

/-- The value of a member of a decoded object. -/
def member (key : GoString) : List (GoString × JSONValue) → Option JSONValue
  | [] => none
  | (k, v) :: ms => if k = key then some v else member key ms

/-- The string member `key` of the JSON object in `body`, decoded. -/
def stringField (key body : GoString) : Option GoString :=
  match parseObject body with
  | some ms =>
    match member key ms with
    | some (.str s) => some s
    | _ => none
  | none => none

/-- The integer member `key` of the JSON object in `body`. -/
def intField (key body : GoString) : Option Int :=
  match parseObject body with
  | some ms =>
    match member key ms with
    | some (.num i) => some i
    | _ => none
  | none => none

/-- Whether the byte is a UTF-8 continuation byte. -/
def isCont (b : Nat) : Bool := decide (0x80 ≤ b ∧ b ≤ 0xBF)

/-- Whether `b1` may follow the first byte `b0` of a three-byte sequence (no overlong
forms, no surrogates). -/
def second3 (b0 b1 : Nat) : Bool :=
  if b0 = 0xE0 then decide (0xA0 ≤ b1 ∧ b1 ≤ 0xBF)
  else if b0 = 0xED then decide (0x80 ≤ b1 ∧ b1 ≤ 0x9F)
  else isCont b1

/-- Whether `b1` may follow the first byte `b0` of a four-byte sequence (no overlong
forms, nothing above U+10FFFF). -/
def second4 (b0 b1 : Nat) : Bool :=
  if b0 = 0xF0 then decide (0x90 ≤ b1 ∧ b1 ≤ 0xBF)
  else if b0 = 0xF4 then decide (0x80 ≤ b1 ∧ b1 ≤ 0x8F)
  else isCont b1

/-- Whether the bytes are well-formed UTF-8 (RFC 3629): a sequence of ASCII bytes and of
two-, three- and four-byte sequences in the allowed ranges. -/
def validUTF8 : GoString → Bool
  | [] => true
  | b0 :: t =>
    if b0 < 0x80 then validUTF8 t
    else
      match t with
      | [] => false
      | b1 :: t1 =>
        if 0xC2 ≤ b0 ∧ b0 ≤ 0xDF then isCont b1 && validUTF8 t1
        else
          match t1 with
          | [] => false
          | b2 :: t2 =>
            if 0xE0 ≤ b0 ∧ b0 ≤ 0xEF then second3 b0 b1 && isCont b2 && validUTF8 t2
            else
              match t2 with
              | [] => false
              | b3 :: t3 =>
                decide (0xF0 ≤ b0 ∧ b0 ≤ 0xF4) && second4 b0 b1 && isCont b2 && isCont b3
                  && validUTF8 t3

/-- The string with every byte that is not part of a well-formed UTF-8 sequence replaced
by the three bytes of U+FFFD. `fuel` = length of the string is enough. -/
def toValidLoop : Nat → GoString → GoString
  | 0, _ => []
  | _ + 1, [] => []
  | fuel + 1, b :: rest =>
    let src := b :: rest
    let cs := DecodeRuneInString (src.take 4)
    if cs.1 = RuneError ∧ cs.2 = 1 then
      [0xEF, 0xBF, 0xBD] ++ toValidLoop fuel (src.drop 1)
    else src.take cs.2 ++ toValidLoop fuel (src.drop cs.2)

/-- The string with invalid bytes replaced by U+FFFD. -/
def toValidUTF8 (s : GoString) : GoString := toValidLoop s.length s

/-- The number of lines of a text: its line feeds. -/
def lineCount (s : GoString) : Nat := s.count 0x0A

/-! ## The query string, piece by piece -/

/-- The key and value that one `&`-separated piece of a query string stands for, or
`none` for a piece that is not a well-formed pair: an empty piece, one with a `;`, or one
whose key or value has a bad `%` escape. -/
def pairOf (piece : GoString) : Option (GoString × GoString) :=
  if 0x3B ∈ piece then none
  else if piece = [] then none
  else
    match QueryUnescape (Cut 0x3D piece).1, QueryUnescape (Cut 0x3D piece).2 with
    | some k, some v => some (k, v)
    | _, _ => none

/-- The value of the first well-formed pair with the given key among the pieces. -/
def firstValue (key : GoString) : List GoString → Option GoString
  | [] => none
  | p :: ps =>
    match pairOf p with
    | some (k, v) => if k = key then some v else firstValue key ps
    | none => firstValue key ps

/-- The query string made of the pieces, `&` between them. -/
def joinAmp : List GoString → GoString
  | [] => []
  | [p] => p
  | p :: q :: ps => p ++ 0x26 :: joinAmp (q :: ps)

/-- The value of the key that a query string made of the given pieces delivers: the value
of the first well-formed pair with the key when there are at most 10000 pieces, and none
(the empty string) when there is no such pair or there are more pieces than that. -/
def queryValue (key : GoString) (ps : List GoString) : GoString :=
  if ps.length ≤ defaultMaxParams then (firstValue key ps).getD [] else []

/-- The map after `parseQuery` has read one piece: a well-formed pair is added, any
other piece is skipped. -/
def addPair (m : Values) (piece : GoString) : Values :=
  match pairOf piece with
  | some (k, v) => m.add k v
  | none => m

/-- The server's call of `checkIPHandler` for one request: a fresh response writer, the
log output and routes as they are. -/
def serve (env : Env) (stderr : GoString) (routes : List (GoString × GoString))
    (r : Request) : State :=
  checkIPHandler env (State.start stderr routes) r

/-! ## Requests served concurrently

The server runs each request in a goroutine of its own, with its own request and response
writer. A goroutine's run of `checkIPHandler` is cut at the calls that touch what the
goroutines share (the log output and the clock); an interleaving is any order of these
steps and of the passing of time. -/

/-- Where a goroutine is in `checkIPHandler`. -/
inductive PC where
  | entry
  | logged
  | timed
  | sleeping
  | woke
  | done
  deriving DecidableEq

/-- One goroutine serving one request: its request, its place in the handler, its local
variables and its response writer. -/
structure Goroutine where
  r : Request
  pc : PC
  ip : GoString
  startTime : Int
  wake : Int
  endTime : Int
  w : ResponseWriter
  deriving DecidableEq

/-- The goroutine the server starts for a request. -/
def Goroutine.spawn (r : Request) : Goroutine :=
  ⟨r, .entry, [], 0, 0, 0, ResponseWriter.fresh⟩

/-- The next step of `checkIPHandler` in a goroutine, given the clock and the log output:
the goroutine after the step and the log output after it. A sleeping goroutine stays
where it is until 50 ms have passed since it went to sleep. -/
def Goroutine.step (hdr : GoString) (clock : Int) (stderr : GoString) (g : Goroutine) :
    Goroutine × GoString :=
  match g.pc with
  | .entry =>
    let ip := g.r.Query.Get (lit "ip")
    if ip = [] then
      ({ g with pc := .done,
                w := Error g.w (lit "Missing 'ip' query parameter") StatusBadRequest }, stderr)
    else
      let msg := Sprintf (lit "GO_HANDLER: Received check request for IP: %s") [.str ip]
      ({ g with pc := .logged, ip := ip }, stderr ++ logOutput hdr msg)
  | .logged => ({ g with pc := .timed, startTime := clock }, stderr)
  | .timed => ({ g with pc := .sleeping, wake := clock + 50 * Millisecond }, stderr)
  | .sleeping => if g.wake ≤ clock then ({ g with pc := .woke }, stderr) else (g, stderr)
  | .woke =>
    let duration := Milliseconds (subMono clock g.startTime)
    let response : CheckResponse :=
      { IPAddress := g.ip, Status := lit "OK_ANONYMOUS", CheckTimeMs := duration }
    let w1 := { g.w with header := g.w.header.Set (lit "Content-Type") (lit "application/json") }
    ({ g with pc := .done, endTime := clock, w := Encode w1 response }, stderr)
  | .done => (g, stderr)

/-- The server with its goroutines: the shared clock and log output, and the goroutines. -/
structure Sys where
  clock : Int
  stderr : GoString
  gs : List Goroutine
  deriving DecidableEq

/-- What can happen next: time passes, or the scheduler runs one step of a goroutine. -/
inductive Event where
  | tick (d : Nat)
  | run (i : Nat)
  deriving DecidableEq

/-- One event on the server. -/
def Sys.step (hdr : GoString) (sys : Sys) : Event → Sys
  | .tick d => { sys with clock := sys.clock + d }
  | .run i =>
    match sys.gs[i]? with
    | none => sys
    | some g =>
      let res := g.step hdr sys.clock sys.stderr
      { sys with stderr := res.2, gs := sys.gs.set i res.1 }

/-- The server after the events of a schedule, in order. -/
def Sys.run (hdr : GoString) (sys : Sys) (schedule : List Event) : Sys :=
  schedule.foldl (Sys.step hdr) sys

/-- The server with one goroutine per request, none of them started. -/
def Sys.init (clock : Int) (rs : List Request) : Sys :=
  ⟨clock, [], rs.map Goroutine.spawn⟩

/-- The `ip` parameter of a request, as the handler reads it. -/
def Request.ip (r : Request) : GoString := r.Query.Get (lit "ip")

/-- The events that take goroutine `i` from its start to its end when nothing else
happens in between. -/
def soloSchedule (i : Nat) : List Event :=
  [.run i, .run i, .run i, .tick 50000000, .run i, .run i]

/-- What holds of the goroutine serving request `r` at every moment: it still has its
request; until it is done its response writer is untouched and, past the entry, its `ip`
is the non-empty `ip` of its request; a sleeping goroutine wakes no later than 50 ms from
now; and once done, its response is the one `checkIPHandler` gives for its request and its
own two clock readings. -/
def Goroutine.OK (hdr : GoString) (r : Request) (clock : Int) (g : Goroutine) : Prop :=
  g.r = r ∧
  match g.pc with
  | .entry => g.w = ResponseWriter.fresh
  | .logged => g.w = ResponseWriter.fresh ∧ g.ip = r.ip ∧ r.ip ≠ []
  | .timed => g.w = ResponseWriter.fresh ∧ g.ip = r.ip ∧ r.ip ≠ []
  | .sleeping =>
    g.w = ResponseWriter.fresh ∧ g.ip = r.ip ∧ r.ip ≠ [] ∧ g.wake ≤ clock + 50000000
  | .woke => g.w = ResponseWriter.fresh ∧ g.ip = r.ip ∧ r.ip ≠ []
  | .done => g.w = (serve ⟨hdr, g.startTime, g.endTime⟩ [] [] r).w

/-- What holds of the server at every moment: every request has its goroutine. -/
def Sys.OK (hdr : GoString) (rs : List Request) (sys : Sys) : Prop :=
  ∀ (i : Nat) (r : Request), rs[i]? = some r →
    ∃ g : Goroutine, sys.gs[i]? = some g ∧ g.OK hdr r sys.clock

/-- The shape of the result of `DecodeRuneInString` used by the string encoder. -/
def DecodedHigh (b : Nat) (rest : GoString) : Prop :=
  DecodeRuneInString ((b :: rest).take 4) = (RuneError, 1) ∨
    ∃ pre post, b :: rest = pre ++ post ∧
      (DecodeRuneInString ((b :: rest).take 4)).2 = pre.length ∧ 2 ≤ pre.length ∧
      (∀ x ∈ pre, 0x80 ≤ x) ∧
      ((DecodeRuneInString ((b :: rest).take 4)).1 = 0x2028 → pre = [0xE2, 0x80, 0xA8]) ∧
      ((DecodeRuneInString ((b :: rest).take 4)).1 = 0x2029 → pre = [0xE2, 0x80, 0xA9])

/-! # Theorems -/

/-! ## Bit fields as arithmetic -/

theorem rune2_eq (s0 s1 : Nat) :
    ((s0 &&& 0x1F) <<< 6) ||| (s1 &&& 0x3F) = (s0 % 32) * 64 + s1 % 64 := by
  have h1 : s0 &&& 0x1F = s0 % 32 := Nat.and_pow_two_sub_one_eq_mod s0 5
  have h2 : s1 &&& 0x3F = s1 % 64 := Nat.and_pow_two_sub_one_eq_mod s1 6
  rw [h1, h2, Nat.shiftLeft_eq]
  have a1 := Nat.mul_add_lt_is_or (i := 6) (b := s1 % 64) (Nat.mod_lt _ (by norm_num)) (s0 % 32)
  simp only [Nat.reducePow] at a1 ⊢
  rw [Nat.mul_comm (s0 % 32) 64]
  exact a1.symm

theorem rune3_eq (s0 s1 s2 : Nat) :
    ((s0 &&& 0x0F) <<< 12) ||| ((s1 &&& 0x3F) <<< 6) ||| (s2 &&& 0x3F)
      = (s0 % 16) * 4096 + (s1 % 64) * 64 + s2 % 64 := by
  have h0 : s0 &&& 0x0F = s0 % 16 := Nat.and_pow_two_sub_one_eq_mod s0 4
  have h1 : s1 &&& 0x3F = s1 % 64 := Nat.and_pow_two_sub_one_eq_mod s1 6
  have h2 : s2 &&& 0x3F = s2 % 64 := Nat.and_pow_two_sub_one_eq_mod s2 6
  rw [h0, h1, h2, Nat.shiftLeft_eq, Nat.shiftLeft_eq]
  have a1 := Nat.mul_add_lt_is_or (i := 12) (b := (s1 % 64) * 2 ^ 6)
    (by have := Nat.mod_lt s1 (show 0 < 64 by norm_num); omega) (s0 % 16)
  have a2 := Nat.mul_add_lt_is_or (i := 6) (b := s2 % 64) (Nat.mod_lt _ (by norm_num))
    ((s0 % 16) * 64 + s1 % 64)
  simp only [Nat.reducePow] at a1 a2 ⊢
  rw [Nat.mul_comm (s0 % 16) 4096, ← a1]
  have e : 4096 * (s0 % 16) + s1 % 64 * 64 = 64 * (s0 % 16 * 64 + s1 % 64) := by omega
  rw [e, ← a2]

theorem rune4_eq (s0 s1 s2 s3 : Nat) :
    ((s0 &&& 0x07) <<< 18) ||| ((s1 &&& 0x3F) <<< 12) ||| ((s2 &&& 0x3F) <<< 6)
        ||| (s3 &&& 0x3F)
      = (s0 % 8) * 262144 + (s1 % 64) * 4096 + (s2 % 64) * 64 + s3 % 64 := by
  have h0 : s0 &&& 0x07 = s0 % 8 := Nat.and_pow_two_sub_one_eq_mod s0 3
  have h1 : s1 &&& 0x3F = s1 % 64 := Nat.and_pow_two_sub_one_eq_mod s1 6
  have h2 : s2 &&& 0x3F = s2 % 64 := Nat.and_pow_two_sub_one_eq_mod s2 6
  have h3 : s3 &&& 0x3F = s3 % 64 := Nat.and_pow_two_sub_one_eq_mod s3 6
  rw [h0, h1, h2, h3, Nat.shiftLeft_eq, Nat.shiftLeft_eq, Nat.shiftLeft_eq]
  have a1 := Nat.mul_add_lt_is_or (i := 18) (b := (s1 % 64) * 2 ^ 12)
    (by have := Nat.mod_lt s1 (show 0 < 64 by norm_num); omega) (s0 % 8)
  have a2 := Nat.mul_add_lt_is_or (i := 12) (b := (s2 % 64) * 2 ^ 6)
    (by have := Nat.mod_lt s2 (show 0 < 64 by norm_num); omega) ((s0 % 8) * 64 + s1 % 64)
  have a3 := Nat.mul_add_lt_is_or (i := 6) (b := s3 % 64) (Nat.mod_lt _ (by norm_num))
    (((s0 % 8) * 64 + s1 % 64) * 64 + s2 % 64)
  simp only [Nat.reducePow] at a1 a2 a3 ⊢
  rw [Nat.mul_comm (s0 % 8) 262144, ← a1]
  have e : 262144 * (s0 % 8) + s1 % 64 * 4096 = 4096 * (s0 % 8 * 64 + s1 % 64) := by omega
  rw [e, ← a2]
  have e2 : 4096 * (s0 % 8 * 64 + s1 % 64) + s2 % 64 * 64
      = 64 * ((s0 % 8 * 64 + s1 % 64) * 64 + s2 % 64) := by omega
  rw [e2, ← a3]

/-! ## Facts about `DecodeRuneInString` -/

theorem decode_ascii (b : Nat) (rest : GoString) (h : b < 0x80) :
    DecodeRuneInString (b :: rest) = (b, 1) := by
  simp [DecodeRuneInString, first, h]

theorem first_cases (b : Nat) (hb : 0x80 ≤ b) :
    first b = 0xF1 ∨ (first b = 0x02 ∧ 0xC2 ≤ b ∧ b ≤ 0xDF) ∨ (first b = 0x13 ∧ b = 0xE0) ∨
    (first b = 0x03 ∧ 0xE1 ≤ b ∧ b ≤ 0xEF ∧ b ≠ 0xED) ∨ (first b = 0x23 ∧ b = 0xED) ∨
    (first b = 0x34 ∧ b = 0xF0) ∨ (first b = 0x04 ∧ 0xF1 ≤ b ∧ b ≤ 0xF3) ∨
    (first b = 0x44 ∧ b = 0xF4) := by
  by_cases h1 : b < 0xC2
  · exact Or.inl (by rw [first, if_neg (by omega), if_pos h1])
  by_cases h2 : b < 0xE0
  · exact Or.inr (Or.inl ⟨by rw [first, if_neg (by omega), if_neg h1, if_pos h2],
      by omega, by omega⟩)
  by_cases h3 : b = 0xE0
  · exact Or.inr (Or.inr (Or.inl ⟨by rw [first, if_neg (by omega), if_neg h1, if_neg h2,
      if_pos h3], h3⟩))
  by_cases h4 : b < 0xED
  · exact Or.inr (Or.inr (Or.inr (Or.inl ⟨by rw [first, if_neg (by omega), if_neg h1,
      if_neg h2, if_neg h3, if_pos h4], by omega, by omega, by omega⟩)))
  by_cases h5 : b = 0xED
  · exact Or.inr (Or.inr (Or.inr (Or.inr (Or.inl ⟨by rw [first, if_neg (by omega),
      if_neg h1, if_neg h2, if_neg h3, if_neg h4, if_pos h5], h5⟩))))
  by_cases h6 : b < 0xF0
  · exact Or.inr (Or.inr (Or.inr (Or.inl ⟨by rw [first, if_neg (by omega), if_neg h1,
      if_neg h2, if_neg h3, if_neg h4, if_neg h5, if_pos h6], by omega, by omega, h5⟩)))
  by_cases h7 : b = 0xF0
  · exact Or.inr (Or.inr (Or.inr (Or.inr (Or.inr (Or.inl ⟨by rw [first, if_neg (by omega),
      if_neg h1, if_neg h2, if_neg h3, if_neg h4, if_neg h5, if_neg h6, if_pos h7], h7⟩)))))
  by_cases h8 : b < 0xF4
  · exact Or.inr (Or.inr (Or.inr (Or.inr (Or.inr (Or.inr (Or.inl ⟨by rw [first,
      if_neg (by omega), if_neg h1, if_neg h2, if_neg h3, if_neg h4, if_neg h5, if_neg h6,
      if_neg h7, if_pos h8], by omega, by omega⟩))))))
  by_cases h9 : b = 0xF4
  · exact Or.inr (Or.inr (Or.inr (Or.inr (Or.inr (Or.inr (Or.inr ⟨by rw [first,
      if_neg (by omega), if_neg h1, if_neg h2, if_neg h3, if_neg h4, if_neg h5, if_neg h6,
      if_neg h7, if_neg h8, if_pos h9], h9⟩))))))
  · exact Or.inl (by rw [first, if_neg (by omega), if_neg h1, if_neg h2, if_neg h3, if_neg h4,
      if_neg h5, if_neg h6, if_neg h7, if_neg h8, if_neg h9])

theorem decode_xx (s0 : Nat) (t : GoString) (h : first s0 = 0xF1) :
    DecodeRuneInString (s0 :: t) = (RuneError, 1) := by
  simp [DecodeRuneInString, h]

theorem decode_two (s0 : Nat) (t : GoString) (h : first s0 = 0x02) :
    DecodeRuneInString (s0 :: t) =
      match t with
      | [] => (RuneError, 1)
      | s1 :: _ =>
        if s1 < 0x80 ∨ 0xBF < s1 then (RuneError, 1)
        else ((s0 % 32) * 64 + s1 % 64, 2) := by
  have e1 : (2 : Nat) &&& 7 = 2 := by decide
  cases t with
  | nil => simp [DecodeRuneInString, h]
  | cons s1 t1 => simp [DecodeRuneInString, h, acceptRanges, rune2_eq, e1]

/-- The three-byte case of `DecodeRuneInString`, for a first byte whose entry in `first`
is `x` with size 3 and accept range `lo..hi`. -/
theorem decode_three (s0 x lo hi : Nat) (t : GoString) (h : first s0 = x)
    (hx : x < 0xF0) (hsz : x &&& 7 = 3) (hacc : acceptRanges (x >>> 4) = (lo, hi)) :
    DecodeRuneInString (s0 :: t) =
      match t with
      | s1 :: s2 :: _ =>
        if s1 < lo ∨ hi < s1 then (RuneError, 1)
        else if s2 < 0x80 ∨ 0xBF < s2 then (RuneError, 1)
        else ((s0 % 16) * 4096 + (s1 % 64) * 64 + s2 % 64, 3)
      | _ => (RuneError, 1) := by
  have hx2 : ¬ (240 ≤ x) := by omega
  rcases t with _ | ⟨s1, _ | ⟨s2, t2⟩⟩
  · simp [DecodeRuneInString, h, hx2, hsz]
  · simp [DecodeRuneInString, h, hx2, hsz]
  · simp [DecodeRuneInString, h, hx2, hsz, hacc, rune3_eq]

/-- The four-byte case of `DecodeRuneInString`. -/
theorem decode_four (s0 x lo hi : Nat) (t : GoString) (h : first s0 = x)
    (hx : x < 0xF0) (hsz : x &&& 7 = 4) (hacc : acceptRanges (x >>> 4) = (lo, hi)) :
    DecodeRuneInString (s0 :: t) =
      match t with
      | s1 :: s2 :: s3 :: _ =>
        if s1 < lo ∨ hi < s1 then (RuneError, 1)
        else if s2 < 0x80 ∨ 0xBF < s2 then (RuneError, 1)
        else if s3 < 0x80 ∨ 0xBF < s3 then (RuneError, 1)
        else ((s0 % 8) * 262144 + (s1 % 64) * 4096 + (s2 % 64) * 64 + s3 % 64, 4)
      | _ => (RuneError, 1) := by
  have hx2 : ¬ (240 ≤ x) := by omega
  rcases t with _ | ⟨s1, _ | ⟨s2, _ | ⟨s3, t3⟩⟩⟩
  · simp [DecodeRuneInString, h, hx2, hsz]
  · simp [DecodeRuneInString, h, hx2, hsz]
  · simp [DecodeRuneInString, h, hx2, hsz]
  · simp [DecodeRuneInString, h, hx2, hsz, hacc, rune4_eq]

theorem decode_high3 (b x lo hi : Nat) (rest : GoString) (h : first b = x)
    (hx : x < 0xF0) (hsz : x &&& 7 = 3) (hacc : acceptRanges (x >>> 4) = (lo, hi))
    (hb1 : 0xE0 ≤ b) (hb2 : b ≤ 0xEF) (hlo : 0x80 ≤ lo) (hhi : hi ≤ 0xBF) :
    DecodedHigh b rest := by
  unfold DecodedHigh
  have htake : (b :: rest).take 4 = b :: rest.take 3 := rfl
  rw [htake, decode_three b x lo hi _ h hx hsz hacc]
  rcases rest with _ | ⟨s1, _ | ⟨s2, t⟩⟩
  · exact Or.inl rfl
  · exact Or.inl rfl
  · simp only [List.take_succ_cons]
    split_ifs with hc1 hc2
    · exact Or.inl rfl
    · exact Or.inl rfl
    · refine Or.inr ⟨[b, s1, s2], t, rfl, rfl, by simp, ?_, ?_, ?_⟩
      · intro y hy
        simp at hy
        omega
      · intro hv
        simp at hv
        have e0 : b = 0xE2 := by omega
        have e1 : s1 = 0x80 := by omega
        have e2 : s2 = 0xA8 := by omega
        simp [e0, e1, e2]
      · intro hv
        simp at hv
        have e0 : b = 0xE2 := by omega
        have e1 : s1 = 0x80 := by omega
        have e2 : s2 = 0xA9 := by omega
        simp [e0, e1, e2]

theorem decode_high4 (b x lo hi : Nat) (rest : GoString) (h : first b = x)
    (hx : x < 0xF0) (hsz : x &&& 7 = 4) (hacc : acceptRanges (x >>> 4) = (lo, hi))
    (hb1 : 0xF0 ≤ b) (hb2 : b ≤ 0xF4) (hlo : 0x80 ≤ lo) (hhi : hi ≤ 0xBF)
    (hbig : b = 0xF0 → 0x90 ≤ lo) :
    DecodedHigh b rest := by
  unfold DecodedHigh
  have htake : (b :: rest).take 4 = b :: rest.take 3 := rfl
  rw [htake, decode_four b x lo hi _ h hx hsz hacc]
  rcases rest with _ | ⟨s1, _ | ⟨s2, _ | ⟨s3, t⟩⟩⟩
  · exact Or.inl rfl
  · exact Or.inl rfl
  · exact Or.inl rfl
  · simp only [List.take_succ_cons]
    split_ifs with hc1 hc2 hc3
    · exact Or.inl rfl
    · exact Or.inl rfl
    · exact Or.inl rfl
    · refine Or.inr ⟨[b, s1, s2, s3], t, rfl, rfl, by simp, ?_, ?_, ?_⟩
      · intro y hy
        simp at hy
        omega
      · intro hv
        simp at hv
        omega
      · intro hv
        simp at hv
        omega

/-- What `DecodeRuneInString` says about a string that starts with a non-ASCII byte:
either the byte is invalid, or a sequence `pre` of two to four bytes, all of them at least
`0x80`, was read; and the line and paragraph separators have one encoding each. -/
theorem decode_high (b : Nat) (rest : GoString) (hb : 0x80 ≤ b) : DecodedHigh b rest := by
  unfold DecodedHigh
  have htake : (b :: rest).take 4 = b :: rest.take 3 := rfl
  rw [htake]
  rcases first_cases b hb with h | ⟨h, h1, h2⟩ | ⟨h, h1⟩ | ⟨h, h1, h2, h3⟩ | ⟨h, h1⟩ | ⟨h, h1⟩ |
      ⟨h, h1, h2⟩ | ⟨h, h1⟩
  · exact Or.inl (decode_xx b _ h)
  · rw [decode_two b _ h]
    rcases rest with _ | ⟨s1, t⟩
    · exact Or.inl rfl
    · simp only [List.take_succ_cons]
      split_ifs with hc
      · exact Or.inl rfl
      · refine Or.inr ⟨[b, s1], t, rfl, rfl, by simp, ?_, ?_, ?_⟩
        · intro x hx
          simp at hx
          omega
        · intro hv; simp at hv; omega
        · intro hv; simp at hv; omega
  · exact decode_high3 b _ _ _ rest h (by decide) (by decide) (by decide : acceptRanges (0x13 >>> 4) = (0xA0, 0xBF))
      (by omega) (by omega) (by decide) (by decide)
  · exact decode_high3 b _ _ _ rest h (by decide) (by decide) (by decide : acceptRanges (0x03 >>> 4) = (0x80, 0xBF))
      (by omega) (by omega) (by decide) (by decide)
  · exact decode_high3 b _ _ _ rest h (by decide) (by decide) (by decide : acceptRanges (0x23 >>> 4) = (0x80, 0x9F))
      (by omega) (by omega) (by decide) (by decide)
  · exact decode_high4 b _ _ _ rest h (by decide) (by decide) (by decide : acceptRanges (0x34 >>> 4) = (0x90, 0xBF))
      (by omega) (by omega) (by decide) (by decide) (by intro; decide)
  · exact decode_high4 b _ _ _ rest h (by decide) (by decide) (by decide : acceptRanges (0x04 >>> 4) = (0x80, 0xBF))
      (by omega) (by omega) (by decide) (by decide) (by omega)
  · exact decode_high4 b _ _ _ rest h (by decide) (by decide) (by decide : acceptRanges (0x44 >>> 4) = (0x80, 0x8F))
      (by omega) (by omega) (by decide) (by decide) (by omega)

/-! ## Decoding what `appendString` wrote -/

theorem unquote_quote (m : Nat) (rest : GoString) :
    unquoteLoop (m + 1) (0x22 :: rest) = some ([], rest) := by
  simp [unquoteLoop]

theorem unquote_plain (m c : Nat) (rest : GoString) (h1 : c ≠ 0x22) (h2 : c ≠ 0x5C)
    (h3 : 0x20 ≤ c) :
    unquoteLoop (m + 1) (c :: rest) = prepend [c] (unquoteLoop m rest) := by
  have h4 : ¬ c < 32 := by omega
  simp [unquoteLoop, h1, h2, h4]

theorem prepend_prepend (p q : GoString) (r : Option (GoString × GoString)) :
    prepend p (prepend q r) = prepend (p ++ q) r := by
  cases r with
  | none => rfl
  | some x => simp [prepend]

theorem unquote_plain_list (pre : GoString) (hpre : ∀ x ∈ pre, 0x80 ≤ x) (m : Nat)
    (rest : GoString) :
    unquoteLoop (m + pre.length) (pre ++ rest) = prepend pre (unquoteLoop m rest) := by
  induction pre with
  | nil =>
    cases h : unquoteLoop m rest with
    | none => simp [prepend, h]
    | some x => simp [prepend, h]
  | cons c t ih =>
    have hc : 0x80 ≤ c := hpre c (by simp)
    have ht : ∀ x ∈ t, 0x80 ≤ x := fun x hx => hpre x (by simp [hx])
    have e : m + (c :: t).length = (m + t.length) + 1 := by simp; omega
    rw [e, List.cons_append, unquote_plain _ _ _ (by omega) (by omega) (by omega), ih ht,
      prepend_prepend]
    rfl

theorem unquote_simple (m e b : Nat) (tail : GoString) (he : e ≠ 0x75)
    (hs : simpleEscape e = some b) :
    unquoteLoop (m + 1) (0x5C :: e :: tail) = prepend [b] (unquoteLoop m tail) := by
  simp [unquoteLoop, he, hs]

theorem unquote_u (m h1 h2 h3 h4 rr : Nat) (tail : GoString)
    (hg : getu4 h1 h2 h3 h4 = some rr) (hr : rr < 0xD800 ∨ 0xE000 ≤ rr) :
    unquoteLoop (m + 1) (0x5C :: 0x75 :: h1 :: h2 :: h3 :: h4 :: tail)
      = prepend (AppendRune rr) (unquoteLoop m tail) := by
  have hr2 : ¬ (0xD800 ≤ rr ∧ rr < 0xE000) := by omega
  simp only [unquoteLoop]
  simp [hg, hr2]

theorem getu4_byte : ∀ b, b < 128 → getu4 0x30 0x30 (hex (b >>> 4)) (hex (b &&& 0xF)) = some b := by
  decide

theorem unquote_escape (m b : Nat) (tail : GoString) (hb : b < 0x80)
    (hs : htmlSafeSet b = false) :
    unquoteLoop (m + 1) (escapeByte b ++ tail) = prepend [b] (unquoteLoop m tail) := by
  unfold escapeByte
  split_ifs with c1 c2 c3 c4 c5 c6
  · rcases c1 with c1 | c1 <;> subst c1 <;> exact unquote_simple m _ _ tail (by decide) (by decide)
  · subst c2; exact unquote_simple m _ _ tail (by decide) (by decide)
  · subst c3; exact unquote_simple m _ _ tail (by decide) (by decide)
  · subst c4; exact unquote_simple m _ _ tail (by decide) (by decide)
  · subst c5; exact unquote_simple m _ _ tail (by decide) (by decide)
  · subst c6; exact unquote_simple m _ _ tail (by decide) (by decide)
  · have e := unquote_u m 0x30 0x30 (hex (b >>> 4)) (hex (b &&& 0xF)) b tail (getu4_byte b hb)
      (by omega)
    have ha : AppendRune b = [b] := by simp [AppendRune]; omega
    rw [ha] at e
    exact e

theorem appendStringLoop_ascii (n b : Nat) (rest : GoString) (hb : b < 0x80) :
    appendStringLoop true (n + 1) (b :: rest) =
      (if htmlSafeSet b then [b] else escapeByte b) ++ appendStringLoop true n rest := by
  simp only [appendStringLoop, hb, if_true]
  cases htmlSafeSet b <;> simp

theorem toValidLoop_ascii (n b : Nat) (rest : GoString) (hb : b < 0x80) :
    toValidLoop (n + 1) (b :: rest) = b :: toValidLoop n rest := by
  have hd : DecodeRuneInString ((b :: rest).take 4) = (b, 1) := decode_ascii b _ hb
  have hne : ¬ (b = RuneError) := by unfold RuneError; omega
  simp only [toValidLoop]
  rw [hd]
  simp [hne]

theorem appendStringLoop_invalid (n b : Nat) (rest : GoString) (hb : 0x80 ≤ b)
    (hd : DecodeRuneInString ((b :: rest).take 4) = (RuneError, 1)) :
    appendStringLoop true (n + 1) (b :: rest) =
      lit "\\ufffd" ++ appendStringLoop true n rest := by
  have hb2 : ¬ b < 0x80 := by omega
  simp only [appendStringLoop, hb2, if_false, hd]
  simp

theorem toValidLoop_invalid (n b : Nat) (rest : GoString)
    (hd : DecodeRuneInString ((b :: rest).take 4) = (RuneError, 1)) :
    toValidLoop (n + 1) (b :: rest) = [0xEF, 0xBF, 0xBD] ++ toValidLoop n rest := by
  simp only [toValidLoop]
  rw [hd]
  simp

theorem appendStringLoop_multi (n b : Nat) (rest pre post : GoString) (hb : 0x80 ≤ b)
    (hsrc : b :: rest = pre ++ post)
    (hlen : (DecodeRuneInString ((b :: rest).take 4)).2 = pre.length) (h2 : 2 ≤ pre.length) :
    appendStringLoop true (n + 1) (b :: rest) =
      (if (DecodeRuneInString ((b :: rest).take 4)).1 = 0x2028 ∨
          (DecodeRuneInString ((b :: rest).take 4)).1 = 0x2029
        then lit "\\u202" ++ [hex ((DecodeRuneInString ((b :: rest).take 4)).1 &&& 0xF)]
        else pre) ++ appendStringLoop true n post := by
  have hb2 : ¬ b < 0x80 := by omega
  have hne : ¬ ((DecodeRuneInString ((b :: rest).take 4)).1 = RuneError ∧
      (DecodeRuneInString ((b :: rest).take 4)).2 = 1) := by
    rw [hlen]; omega
  have ht : (b :: rest).take pre.length = pre := by rw [hsrc]; simp
  have hdr : (b :: rest).drop pre.length = post := by rw [hsrc]; simp
  simp only [appendStringLoop, hb2, if_false, hne]
  rw [hlen, ht, hdr]
  split_ifs <;> simp

theorem toValidLoop_multi (n b : Nat) (rest pre post : GoString)
    (hsrc : b :: rest = pre ++ post)
    (hlen : (DecodeRuneInString ((b :: rest).take 4)).2 = pre.length) (h2 : 2 ≤ pre.length) :
    toValidLoop (n + 1) (b :: rest) = pre ++ toValidLoop n post := by
  have hne : ¬ ((DecodeRuneInString ((b :: rest).take 4)).1 = RuneError ∧
      (DecodeRuneInString ((b :: rest).take 4)).2 = 1) := by
    rw [hlen]; omega
  have ht : (b :: rest).take pre.length = pre := by rw [hsrc]; simp
  have hdr : (b :: rest).drop pre.length = post := by rw [hsrc]; simp
  simp only [toValidLoop, hne, if_false]
  rw [hlen, ht, hdr]

theorem unquote_fffd (m : Nat) (tail : GoString) :
    unquoteLoop (m + 1) (lit "\\ufffd" ++ tail)
      = prepend [0xEF, 0xBF, 0xBD] (unquoteLoop m tail) :=
  unquote_u m 0x66 0x66 0x66 0x64 0xFFFD tail (by decide) (by decide)

theorem unquote_2028 (m : Nat) (tail : GoString) :
    unquoteLoop (m + 1) (lit "\\u202" ++ [hex (0x2028 &&& 0xF)] ++ tail)
      = prepend [0xE2, 0x80, 0xA8] (unquoteLoop m tail) :=
  unquote_u m 0x32 0x30 0x32 0x38 0x2028 tail (by decide) (by decide)

theorem unquote_2029 (m : Nat) (tail : GoString) :
    unquoteLoop (m + 1) (lit "\\u202" ++ [hex (0x2029 &&& 0xF)] ++ tail)
      = prepend [0xE2, 0x80, 0xA9] (unquoteLoop m tail) :=
  unquote_u m 0x32 0x30 0x32 0x39 0x2029 tail (by decide) (by decide)

/-- Decoding what the string encoder wrote gives the string with its invalid bytes
replaced by U+FFFD, and stops right after the closing quote. -/
theorem unquote_appendStringLoop (n : Nat) :
    ∀ (s : GoString), s.length ≤ n → ∀ (rest : GoString) (m : Nat),
      (appendStringLoop true n s ++ 0x22 :: rest).length ≤ m →
      unquoteLoop m (appendStringLoop true n s ++ 0x22 :: rest)
        = some (toValidLoop n s, rest) := by
  induction n with
  | zero =>
    intro s hs rest m hm
    have : s = [] := List.length_eq_zero.mp (by omega)
    subst this
    obtain ⟨m', rfl⟩ : ∃ m', m = m' + 1 := ⟨m - 1, by simp [appendStringLoop] at hm; omega⟩
    simp [appendStringLoop, toValidLoop, unquoteLoop]
  | succ n ih =>
    intro s hs rest m hm
    cases s with
    | nil =>
      obtain ⟨m', rfl⟩ : ∃ m', m = m' + 1 := ⟨m - 1, by simp [appendStringLoop] at hm; omega⟩
      simp [appendStringLoop, toValidLoop, unquoteLoop]
    | cons b t =>
      have hlt : t.length ≤ n := by simp at hs; omega
      have hl1 : (lit "\\ufffd").length = 6 := by decide
      have hl2 : (lit "\\u202").length = 5 := by decide
      by_cases hb : b < 0x80
      · rw [appendStringLoop_ascii n b t hb, toValidLoop_ascii n b t hb] at *
        cases hsafe : htmlSafeSet b with
        | false =>
          rw [hsafe] at hm
          simp only [Bool.false_eq_true, if_false, List.append_assoc] at hm ⊢
          have hpos : 1 ≤ (escapeByte b).length := by
            unfold escapeByte; split_ifs <;> simp
          simp only [List.length_append, List.length_cons] at hm
          obtain ⟨m', rfl⟩ : ∃ m', m = m' + 1 := ⟨m - 1, by omega⟩
          rw [unquote_escape m' b _ hb hsafe,
            ih t hlt rest m' (by simp only [List.length_append, List.length_cons]; omega)]
          rfl
        | true =>
          rw [hsafe] at hm
          simp only [if_true, List.singleton_append, List.cons_append, List.nil_append]
            at hm ⊢
          simp only [List.length_append, List.length_cons] at hm
          obtain ⟨m', rfl⟩ : ∃ m', m = m' + 1 := ⟨m - 1, by omega⟩
          have hprop : 0x20 ≤ b ∧ b ≠ 0x22 ∧ b ≠ 0x5C := by
            simp [htmlSafeSet] at hsafe; omega
          rw [unquote_plain m' b _ hprop.2.1 hprop.2.2 hprop.1,
            ih t hlt rest m' (by simp only [List.length_append, List.length_cons]; omega)]
          rfl
      · have hb' : 0x80 ≤ b := by omega
        rcases decode_high b t hb' with hd | ⟨pre, post, hsrc, hlen, h2, hall, h28, h29⟩
        · rw [appendStringLoop_invalid n b t hb' hd, toValidLoop_invalid n b t hd] at *
          simp only [List.append_assoc] at hm ⊢
          simp only [List.length_append, List.length_cons, hl1] at hm
          obtain ⟨m', rfl⟩ : ∃ m', m = m' + 1 := ⟨m - 1, by omega⟩
          rw [unquote_fffd m' _,
            ih t hlt rest m' (by simp only [List.length_append, List.length_cons]; omega)]
          rfl
        · have hpost : post.length ≤ n := by
            have := congrArg List.length hsrc
            simp only [List.length_cons, List.length_append] at this
            omega
          rw [appendStringLoop_multi n b t pre post hb' hsrc hlen h2,
            toValidLoop_multi n b t pre post hsrc hlen h2] at *
          split_ifs at hm ⊢ with hc
          · simp only [List.append_assoc] at hm ⊢
            simp only [List.length_append, List.length_cons, hl2] at hm
            obtain ⟨m', rfl⟩ : ∃ m', m = m' + 1 := ⟨m - 1, by omega⟩
            have hfuel : (appendStringLoop true n post ++ 0x22 :: rest).length ≤ m' := by
              simp only [List.length_append, List.length_cons]
              omega
            rcases hc with hc | hc
            · rw [hc, h28 hc]
              have e := unquote_2028 m' (appendStringLoop true n post ++ 0x22 :: rest)
              simp only [List.append_assoc] at e
              rw [e, ih post hpost rest m' hfuel]
              rfl
            · rw [hc, h29 hc]
              have e := unquote_2029 m' (appendStringLoop true n post ++ 0x22 :: rest)
              simp only [List.append_assoc] at e
              rw [e, ih post hpost rest m' hfuel]
              rfl
          · simp only [List.append_assoc] at hm ⊢
            simp only [List.length_append, List.length_cons] at hm
            obtain ⟨m', rfl⟩ : ∃ m', m = m' + pre.length := ⟨m - pre.length, by omega⟩
            rw [unquote_plain_list pre hall m' _,
              ih post hpost rest m' (by simp only [List.length_append, List.length_cons]; omega)]
            rfl

/-! ## Well-formed UTF-8 is kept as it is -/

theorem first_two (b : Nat) (h1 : 0xC2 ≤ b) (h2 : b ≤ 0xDF) : first b = 0x02 := by
  rw [first, if_neg (by omega), if_neg (by omega), if_pos (by omega)]

theorem first_three (b : Nat) (h1 : 0xE1 ≤ b) (h2 : b ≤ 0xEF) (h3 : b ≠ 0xED) :
    first b = 0x03 := by
  rcases first_cases b (by omega) with h | h | h | h | h | h | h | h
  · rw [first, if_neg (by omega), if_neg (by omega), if_neg (by omega), if_neg (by omega)] at h
    by_cases h4 : b < 0xED
    · rw [if_pos h4] at h; omega
    · rw [if_neg h4, if_neg h3, if_pos (by omega)] at h; omega
  · omega
  · omega
  · exact h.1
  · omega
  · omega
  · omega
  · omega

theorem first_four (b : Nat) (h1 : 0xF1 ≤ b) (h2 : b ≤ 0xF3) : first b = 0x04 := by
  rw [first, if_neg (by omega), if_neg (by omega), if_neg (by omega), if_neg (by omega),
    if_neg (by omega), if_neg (by omega), if_neg (by omega), if_neg (by omega),
    if_pos (by omega)]

theorem decode_size_two (b0 b1 : Nat) (t : GoString) (h1 : 0xC2 ≤ b0) (h2 : b0 ≤ 0xDF)
    (hc : isCont b1 = true) :
    (DecodeRuneInString ((b0 :: b1 :: t).take 4)).2 = 2 := by
  have hc' : 0x80 ≤ b1 ∧ b1 ≤ 0xBF := by simpa [isCont] using hc
  have htake : (b0 :: b1 :: t).take 4 = b0 :: b1 :: t.take 2 := rfl
  rw [htake, decode_two b0 _ (first_two b0 h1 h2)]
  have hn : ¬ (b1 < 0x80 ∨ 0xBF < b1) := by omega
  simp only [hn, if_false]

theorem decode_size_three (b0 b1 b2 : Nat) (t : GoString) (h1 : 0xE0 ≤ b0) (h2 : b0 ≤ 0xEF)
    (hs : second3 b0 b1 = true) (hc : isCont b2 = true) :
    (DecodeRuneInString ((b0 :: b1 :: b2 :: t).take 4)).2 = 3 := by
  have hc' : 0x80 ≤ b2 ∧ b2 ≤ 0xBF := by simpa [isCont] using hc
  have hn2 : ¬ (b2 < 0x80 ∨ 0xBF < b2) := by omega
  have htake : (b0 :: b1 :: b2 :: t).take 4 = b0 :: b1 :: b2 :: t.take 1 := rfl
  rw [htake]
  by_cases e0 : b0 = 0xE0
  · subst e0
    rw [decode_three 0xE0 0x13 0xA0 0xBF _ (by decide) (by decide) (by decide) (by decide)]
    have hs' : 0xA0 ≤ b1 ∧ b1 ≤ 0xBF := by simpa [second3] using hs
    have hn1 : ¬ (b1 < 0xA0 ∨ 0xBF < b1) := by omega
    simp only [hn1, hn2, if_false]
  · by_cases ed : b0 = 0xED
    · subst ed
      rw [decode_three 0xED 0x23 0x80 0x9F _ (by decide) (by decide) (by decide) (by decide)]
      have hs' : 0x80 ≤ b1 ∧ b1 ≤ 0x9F := by simpa [second3] using hs
      have hn1 : ¬ (b1 < 0x80 ∨ 0x9F < b1) := by omega
      simp only [hn1, hn2, if_false]
    · rw [decode_three b0 0x03 0x80 0xBF _ (first_three b0 (by omega) h2 ed) (by decide)
        (by decide) (by decide)]
      have hs' : 0x80 ≤ b1 ∧ b1 ≤ 0xBF := by simpa [second3, e0, ed, isCont] using hs
      have hn1 : ¬ (b1 < 0x80 ∨ 0xBF < b1) := by omega
      simp only [hn1, hn2, if_false]

theorem decode_size_four (b0 b1 b2 b3 : Nat) (t : GoString) (h1 : 0xF0 ≤ b0) (h2 : b0 ≤ 0xF4)
    (hs : second4 b0 b1 = true) (hc2 : isCont b2 = true) (hc3 : isCont b3 = true) :
    (DecodeRuneInString ((b0 :: b1 :: b2 :: b3 :: t).take 4)).2 = 4 := by
  have hc2' : 0x80 ≤ b2 ∧ b2 ≤ 0xBF := by simpa [isCont] using hc2
  have hc3' : 0x80 ≤ b3 ∧ b3 ≤ 0xBF := by simpa [isCont] using hc3
  have hn2 : ¬ (b2 < 0x80 ∨ 0xBF < b2) := by omega
  have hn3 : ¬ (b3 < 0x80 ∨ 0xBF < b3) := by omega
  have htake : (b0 :: b1 :: b2 :: b3 :: t).take 4 = b0 :: b1 :: b2 :: b3 :: t.take 0 := rfl
  rw [htake]
  by_cases e0 : b0 = 0xF0
  · subst e0
    rw [decode_four 0xF0 0x34 0x90 0xBF _ (by decide) (by decide) (by decide) (by decide)]
    have hs' : 0x90 ≤ b1 ∧ b1 ≤ 0xBF := by simpa [second4] using hs
    have hn1 : ¬ (b1 < 0x90 ∨ 0xBF < b1) := by omega
    simp only [hn1, hn2, hn3, if_false]
  · by_cases e4 : b0 = 0xF4
    · subst e4
      rw [decode_four 0xF4 0x44 0x80 0x8F _ (by decide) (by decide) (by decide) (by decide)]
      have hs' : 0x80 ≤ b1 ∧ b1 ≤ 0x8F := by simpa [second4] using hs
      have hn1 : ¬ (b1 < 0x80 ∨ 0x8F < b1) := by omega
      simp only [hn1, hn2, hn3, if_false]
    · rw [decode_four b0 0x04 0x80 0xBF _ (first_four b0 (by omega) (by omega)) (by decide)
        (by decide) (by decide)]
      have hs' : 0x80 ≤ b1 ∧ b1 ≤ 0xBF := by simpa [second4, e0, e4, isCont] using hs
      have hn1 : ¬ (b1 < 0x80 ∨ 0xBF < b1) := by omega
      simp only [hn1, hn2, hn3, if_false]

/-- A well-formed UTF-8 string has no byte to replace. -/
theorem toValidLoop_of_valid (n : Nat) :
    ∀ (s : GoString), s.length ≤ n → validUTF8 s = true → toValidLoop n s = s := by
  induction n with
  | zero =>
    intro s hs _
    have : s = [] := List.length_eq_zero.mp (by omega)
    subst this
    rfl
  | succ n ih =>
    intro s hs hv
    rcases s with _ | ⟨b0, t⟩
    · rfl
    · simp only [List.length_cons] at hs
      unfold validUTF8 at hv
      by_cases hb : b0 < 0x80
      · rw [toValidLoop_ascii n b0 t hb]
        simp only [hb, if_true] at hv
        rw [ih t (by omega) hv]
      · simp only [hb, if_false] at hv
        rcases t with _ | ⟨b1, t1⟩
        · simp at hv
        · simp only [List.length_cons] at hs
          by_cases h2 : 0xC2 ≤ b0 ∧ b0 ≤ 0xDF
          · simp only [h2, and_self, if_true, Bool.and_eq_true] at hv
            rw [toValidLoop_multi n b0 (b1 :: t1) [b0, b1] t1 rfl
              (decode_size_two b0 b1 t1 h2.1 h2.2 hv.1) (by simp), ih t1 (by omega) hv.2]
            rfl
          · simp only [h2, if_false] at hv
            rcases t1 with _ | ⟨b2, t2⟩
            · simp at hv
            · simp only [List.length_cons] at hs
              by_cases h3 : 0xE0 ≤ b0 ∧ b0 ≤ 0xEF
              · simp only [h3, and_self, if_true, Bool.and_eq_true] at hv
                rw [toValidLoop_multi n b0 (b1 :: b2 :: t2) [b0, b1, b2] t2 rfl
                  (decode_size_three b0 b1 b2 t2 h3.1 h3.2 hv.1.1 hv.1.2) (by simp),
                  ih t2 (by omega) hv.2]
                rfl
              · simp only [h3, if_false] at hv
                rcases t2 with _ | ⟨b3, t3⟩
                · simp at hv
                · simp only [List.length_cons] at hs
                  simp only [Bool.and_eq_true, decide_eq_true_eq] at hv
                  rw [toValidLoop_multi n b0 (b1 :: b2 :: b3 :: t3) [b0, b1, b2, b3] t3 rfl
                    (decode_size_four b0 b1 b2 b3 t3 hv.1.1.1.1.1 hv.1.1.1.1.2 hv.1.1.1.2
                      hv.1.1.2 hv.1.2) (by simp), ih t3 (by omega) hv.2]
                  rfl

theorem toValidUTF8_of_valid (s : GoString) (hv : validUTF8 s = true) : toValidUTF8 s = s :=
  toValidLoop_of_valid s.length s (Nat.le_refl _) hv

/-- Decoding the quoted string written by `appendString`. -/
theorem parseString_appendString (s rest : GoString) :
    parseString (appendString s true ++ rest) = some (toValidUTF8 s, rest) := by
  unfold appendString parseString toValidUTF8
  simp only [List.cons_append, List.append_assoc, List.singleton_append, if_true]
  exact unquote_appendStringLoop s.length s (Nat.le_refl _) rest _ (Nat.le_refl _)

/-! ## Decoding what `FormatInt` wrote -/

/-- The digits written by `formatBits`: they are not empty, they are digits, reading
them back gives the number, zero is written `0` and no other number starts with `0`. -/
theorem formatBits_digits (fuel : Nat) :
    ∀ u, u < 10 ^ (fuel + 1) → ∃ ds : GoString, ds ≠ [] ∧ (∀ d ∈ ds, isDigit d = true) ∧
      (∀ acc, formatBits (fuel + 1) u acc = ds ++ acc) ∧
      (∀ a rest, parseDigits (ds ++ rest) a = parseDigits rest (a * 10 ^ ds.length + u)) ∧
      (u < 10 → ds = [0x30 + u]) ∧
      (1 ≤ u → ∀ d t, ds = d :: t → d ≠ 0x30) := by
  induction fuel with
  | zero =>
    intro u hu
    have hu' : u < 10 := by simpa using hu
    refine ⟨[0x30 + u], by simp, ?_, ?_, ?_, fun _ => rfl, ?_⟩
    · intro d hd
      simp at hd
      subst hd
      simp [isDigit]; omega
    · intro acc
      simp [formatBits, hu']
    · intro a rest
      have hd : isDigit (48 + u) = true := by simp [isDigit]; omega
      simp [parseDigits, hd]
    · intro h1 d t hdt
      simp only [List.cons.injEq] at hdt
      omega
  | succ fuel ih =>
    intro u hu
    by_cases hu' : u < 10
    · refine ⟨[0x30 + u], by simp, ?_, ?_, ?_, fun _ => rfl, ?_⟩
      · intro d hd
        simp at hd
        subst hd
        simp [isDigit]; omega
      · intro acc
        simp [formatBits, hu']
      · intro a rest
        have hd : isDigit (48 + u) = true := by simp [isDigit]; omega
        simp [parseDigits, hd]
      · intro h1 d t hdt
        simp only [List.cons.injEq] at hdt
        omega
    · have hdiv : u / 10 < 10 ^ (fuel + 1) := by
        rw [Nat.div_lt_iff_lt_mul (by norm_num)]
        calc u < 10 ^ (fuel + 1 + 1) := hu
          _ = 10 ^ (fuel + 1) * 10 := by ring
      obtain ⟨ds, hne, hdig, hfmt, hparse, _, hnz⟩ := ih (u / 10) hdiv
      refine ⟨ds ++ [0x30 + u % 10], by simp, ?_, ?_, ?_, fun h => absurd h hu', ?_⟩
      · intro d hd
        simp only [List.mem_append, List.mem_singleton] at hd
        rcases hd with hd | hd
        · exact hdig d hd
        · subst hd
          simp [isDigit]; omega
      · intro acc
        have e : formatBits (fuel + 1 + 1) u acc
            = formatBits (fuel + 1) (u / 10) ((0x30 + u % 10) :: acc) := by
          simp [formatBits, hu']
        rw [e, hfmt]
        simp
      · intro a rest
        have hd : isDigit (48 + u % 10) = true := by simp [isDigit]; omega
        rw [List.append_assoc, hparse]
        simp only [List.singleton_append, parseDigits, hd, if_true, List.length_append,
          List.length_singleton]
        congr 1
        have e : 48 + u % 10 - 48 = u % 10 := by omega
        rw [e, pow_succ]
        have := Nat.div_add_mod u 10
        nlinarith [this]
      · intro _ d t hdt
        cases ds with
        | nil => exact absurd rfl hne
        | cons d0 t0 =>
          simp only [List.cons_append, List.cons.injEq] at hdt
          rw [← hdt.1]
          exact hnz (by omega) d0 t0 rfl

theorem leadingZero_digits (u : Nat) (ds rest : GoString)
    (hsmall : u < 10 → ds = [0x30 + u]) (hnz : 1 ≤ u → ∀ d t, ds = d :: t → d ≠ 0x30)
    (hrest : ∀ c r, rest = c :: r → isDigit c = false) :
    leadingZero (ds ++ rest) = false := by
  by_cases hu : u < 10
  · rw [hsmall hu]
    cases rest with
    | nil => rfl
    | cons c r => simp [leadingZero, hrest c r rfl]
  · cases ds with
    | nil =>
      cases rest with
      | nil => rfl
      | cons c r =>
        cases r with
        | nil => rfl
        | cons c2 r2 =>
          have := hrest c (c2 :: r2) rfl
          simp only [List.nil_append, leadingZero, Bool.and_eq_false_imp, decide_eq_true_eq]
          intro h0
          subst h0
          simp [isDigit] at this
    | cons d t =>
      have hd := hnz (by omega) d t rfl
      cases h : t ++ rest with
      | nil => simp [leadingZero, h]
      | cons c r => simp [leadingZero, h, hd]

theorem parseDigits_stop (rest : GoString) (a : Nat)
    (hrest : ∀ c r, rest = c :: r → isDigit c = false) : parseDigits rest a = (a, rest) := by
  cases rest with
  | nil => rfl
  | cons c r => simp [parseDigits, hrest c r rfl]

/-- Reading back the decimal text of an integer, when what follows cannot go on a number. -/
theorem parseInt_FormatInt (i : Int) (rest : GoString) (hi : i.natAbs < 10 ^ 20)
    (hrest : ∀ c r, rest = c :: r → isDigit c = false ∧ c ≠ 0x2E ∧ c ≠ 0x65 ∧ c ≠ 0x45) :
    parseInt (FormatInt i ++ rest) = some (i, rest) := by
  have hstop : ∀ a, parseDigits rest a = (a, rest) :=
    fun a => parseDigits_stop rest a (fun c r h => (hrest c r h).1)
  have hfrac : startsFraction rest = false := by
    cases rest with
    | nil => rfl
    | cons c r =>
      have := hrest c r rfl
      simp [startsFraction, this.2.1, this.2.2.1, this.2.2.2]
  unfold FormatInt
  by_cases hneg : i < 0
  · simp only [hneg, if_true]
    obtain ⟨ds, hne, hdig, hfmt, hparse, hsmall, hnz⟩ := formatBits_digits 19 i.natAbs hi
    have hlz := leadingZero_digits i.natAbs ds rest hsmall hnz (fun c r h => (hrest c r h).1)
    rw [hfmt]
    obtain ⟨d, t, rfl⟩ : ∃ d t, ds = d :: t := by
      cases ds with
      | nil => exact absurd rfl hne
      | cons d t => exact ⟨d, t, rfl⟩
    have hd : isDigit d = true := hdig d (by simp)
    have hp := hparse 0 rest
    simp only [List.append_nil, List.cons_append] at hp hlz ⊢
    simp only [parseInt, if_true, hd, hlz, hp, hstop, hfrac, Bool.false_eq_true, if_false,
      Bool.not_false, Bool.and_self]
    have habs : -((i.natAbs : Nat) : Int) = i := by omega
    simpa using habs
  · simp only [hneg, if_false]
    have hi' : i.toNat < 10 ^ (19 + 1) := by omega
    obtain ⟨ds, hne, hdig, hfmt, hparse, hsmall, hnz⟩ := formatBits_digits 19 i.toNat hi'
    have hlz := leadingZero_digits i.toNat ds rest hsmall hnz (fun c r h => (hrest c r h).1)
    rw [hfmt]
    obtain ⟨d, t, rfl⟩ : ∃ d t, ds = d :: t := by
      cases ds with
      | nil => exact absurd rfl hne
      | cons d t => exact ⟨d, t, rfl⟩
    have hd : isDigit d = true := hdig d (by simp)
    have hd2 : d ≠ 0x2D := by
      intro h; subst h; simp [isDigit] at hd
    have hp := hparse 0 rest
    simp only [List.append_nil, List.cons_append] at hp hlz ⊢
    simp only [parseInt, hd2, if_false, hd, hlz, if_true, hp, hstop, hfrac,
      Bool.false_eq_true, Bool.not_false, Bool.and_self]
    simp
    omega

/-! ## Decoding the body written by `Encode` -/

theorem skipWS_cons (c : Nat) (t : GoString)
    (hc : c ≠ 0x20 ∧ c ≠ 0x09 ∧ c ≠ 0x0A ∧ c ≠ 0x0D) : skipWS (c :: t) = c :: t := by
  simp [skipWS, hc.1, hc.2.1, hc.2.2.1, hc.2.2.2]

theorem appendString_cons (s rest : GoString) :
    appendString s true ++ rest
      = 0x22 :: (appendStringLoop true s.length s ++ 0x22 :: rest) := by
  simp [appendString]

theorem appendString_length (s : GoString) : 2 ≤ (appendString s true).length := by
  simp [appendString]

theorem skipWS_appendString (s rest : GoString) :
    skipWS (appendString s true ++ rest) = appendString s true ++ rest := by
  rw [appendString_cons]
  exact skipWS_cons _ _ (by decide)

theorem parseValue_appendString (s rest : GoString) :
    parseValue (appendString s true ++ rest) = some (.str (toValidUTF8 s), rest) := by
  have h := parseString_appendString s rest
  rw [appendString_cons] at h ⊢
  simp only [parseValue, if_true, h]

theorem FormatInt_head (i : Int) (hi : i.natAbs < 10 ^ 20) :
    ∃ c t, FormatInt i = c :: t ∧ (c = 0x2D ∨ isDigit c = true) := by
  unfold FormatInt
  by_cases hneg : i < 0
  · simp only [hneg, if_true]
    exact ⟨_, _, rfl, Or.inl rfl⟩
  · simp only [hneg, if_false]
    have hi' : i.toNat < 10 ^ (19 + 1) := by omega
    obtain ⟨ds, hne, hdig, hfmt, _, _, _⟩ := formatBits_digits 19 i.toNat hi'
    rw [hfmt]
    cases ds with
    | nil => exact absurd rfl hne
    | cons d t => exact ⟨d, t ++ [], by simp, Or.inr (hdig d (by simp))⟩

theorem parseValue_FormatInt (i : Int) (rest : GoString) (hi : i.natAbs < 10 ^ 20)
    (hrest : ∀ c r, rest = c :: r → isDigit c = false ∧ c ≠ 0x2E ∧ c ≠ 0x65 ∧ c ≠ 0x45) :
    skipWS (FormatInt i ++ rest) = FormatInt i ++ rest ∧
    parseValue (FormatInt i ++ rest) = some (.num i, rest) := by
  have h := parseInt_FormatInt i rest hi hrest
  obtain ⟨c, t, hc, hcd⟩ := FormatInt_head i hi
  rw [hc] at h ⊢
  have hprop : c ≠ 0x22 ∧ c ≠ 0x20 ∧ c ≠ 0x09 ∧ c ≠ 0x0A ∧ c ≠ 0x0D := by
    rcases hcd with hcd | hcd
    · subst hcd; decide
    · simp [isDigit] at hcd; omega
  refine ⟨skipWS_cons _ _ ⟨hprop.2.1, hprop.2.2.1, hprop.2.2.2.1, hprop.2.2.2.2⟩, ?_⟩
  simp only [List.cons_append] at h ⊢
  simp only [parseValue, hprop.1, if_false, h]

/-- One member with a string value, followed by a comma. -/
theorem parseMembers_string (fuel : Nat) (name s rest : GoString) :
    parseMembers (fuel + 1)
        (appendString name true ++ 0x3A :: (appendString s true ++ 0x2C :: rest))
      = match parseMembers fuel rest with
        | some (ms, r) => some ((toValidUTF8 name, .str (toValidUTF8 s)) :: ms, r)
        | none => none := by
  rw [parseMembers, skipWS_appendString, parseString_appendString]
  simp only [skipWS_cons 0x3A _ (by decide), if_true, skipWS_appendString,
    parseValue_appendString, skipWS_cons 0x2C _ (by decide)]

/-- The last member, with an integer value, followed by the closing brace. -/
theorem parseMembers_int (fuel : Nat) (name rest : GoString) (i : Int)
    (hi : i.natAbs < 10 ^ 20) :
    parseMembers (fuel + 1) (appendString name true ++ 0x3A :: (FormatInt i ++ 0x7D :: rest))
      = some ([(toValidUTF8 name, .num i)], rest) := by
  have hv := parseValue_FormatInt i (0x7D :: rest) hi (by
    intro c r h
    simp only [List.cons.injEq] at h
    rw [← h.1]
    decide)
  rw [parseMembers, skipWS_appendString, parseString_appendString]
  simp only [skipWS_cons 0x3A _ (by decide), if_true, hv.1, hv.2,
    skipWS_cons 0x7D _ (by decide)]
  simp

/-- The body `Encode` writes for a `CheckResponse` is the JSON text of one object with
the three members of the struct, in order; the strings come back with their invalid
bytes replaced by U+FFFD. -/
theorem parseObject_Encode (r : CheckResponse) (hi : r.CheckTimeMs.natAbs < 10 ^ 20) :
    parseObject (structEncode true r.fields ++ [0x0A])
      = some [(lit "ip_address", .str (toValidUTF8 r.IPAddress)),
              (lit "status", .str (toValidUTF8 r.Status)),
              (lit "check_time_ms", .num r.CheckTimeMs)] := by
  have k1 : toValidUTF8 (lit "ip_address") = lit "ip_address" := by decide
  have k2 : toValidUTF8 (lit "status") = lit "status" := by decide
  have k3 : toValidUTF8 (lit "check_time_ms") = lit "check_time_ms" := by decide
  have hbody : structEncode true r.fields ++ [0x0A]
      = 0x7B :: (appendString (lit "ip_address") true ++ 0x3A ::
          (appendString r.IPAddress true ++ 0x2C ::
          (appendString (lit "status") true ++ 0x3A ::
          (appendString r.Status true ++ 0x2C ::
          (appendString (lit "check_time_ms") true ++ 0x3A ::
          (FormatInt r.CheckTimeMs ++ 0x7D :: [0x0A])))))) := by
    simp [structEncode, CheckResponse.fields, encodeFields, encodeValue]
  rw [hbody]
  generalize hX : (appendString r.IPAddress true ++ 0x2C ::
          (appendString (lit "status") true ++ 0x3A ::
          (appendString r.Status true ++ 0x2C ::
          (appendString (lit "check_time_ms") true ++ 0x3A ::
          (FormatInt r.CheckTimeMs ++ 0x7D :: [0x0A]))))) = X
  have hlen : ∃ k, (0x7B :: (appendString (lit "ip_address") true ++ 0x3A :: X)).length
      = k + 3 := by
    have l1 := appendString_length (lit "ip_address")
    refine ⟨(0x7B :: (appendString (lit "ip_address") true ++ 0x3A :: X)).length - 3, ?_⟩
    simp only [List.length_cons, List.length_append]
    omega
  obtain ⟨k, hk⟩ := hlen
  unfold parseObject
  rw [hk, skipWS_cons 0x7B _ (by decide)]
  simp only [if_true, skipWS_appendString]
  rw [appendString_cons]
  simp only [show ¬ ((0x22 : Nat) = 0x7D) by decide, if_false]
  rw [← appendString_cons, ← hX, parseMembers_string, parseMembers_string,
    parseMembers_int _ _ _ _ hi, k1, k2, k3]
  simp [skipWS]

/-! ## The two paths of `checkIPHandler` -/

theorem checkIPHandler_error (env : Env) (st : State) (r : Request)
    (h : r.Query.Get (lit "ip") = []) :
    checkIPHandler env st r
      = { st with w := Error st.w (lit "Missing 'ip' query parameter") StatusBadRequest } := by
  simp [checkIPHandler, h]

theorem Sprintf_ip (ip : GoString) :
    Sprintf (lit "GO_HANDLER: Received check request for IP: %s") [.str ip]
      = lit "GO_HANDLER: Received check request for IP: " ++ ip := by
  simp [Sprintf, lit, Arg.render]

theorem checkIPHandler_ok (env : Env) (st : State) (r : Request)
    (h : r.Query.Get (lit "ip") ≠ []) :
    checkIPHandler env st r
      = { st with
          w := Encode
            { st.w with header := st.w.header.Set (lit "Content-Type") (lit "application/json") }
            { IPAddress := r.Query.Get (lit "ip"), Status := lit "OK_ANONYMOUS",
              CheckTimeMs := Milliseconds (subMono env.later env.now) }
          stderr := st.stderr ++ logOutput env.logHeader
            (lit "GO_HANDLER: Received check request for IP: " ++ r.Query.Get (lit "ip"))
          trace := st.trace ++
            [.logPrintf (lit "GO_HANDLER: Received check request for IP: " ++ r.Query.Get (lit "ip")),
             .timeNow, .timeSleep 50000000, .timeSince] } := by
  simp [checkIPHandler, h, Sprintf_ip, Millisecond]

theorem Encode_fresh (v : CheckResponse) :
    Encode { ResponseWriter.fresh with
        header := ResponseWriter.fresh.header.Set (lit "Content-Type") (lit "application/json") } v
      = ⟨[(lit "Content-Type", lit "application/json")], some 200,
         [(lit "Content-Type", lit "application/json")], structEncode true v.fields ++ [0x0A]⟩ := by
  rfl

theorem Error_fresh :
    Error ResponseWriter.fresh (lit "Missing 'ip' query parameter") StatusBadRequest
      = ⟨[(lit "Content-Type", lit "text/plain; charset=utf-8"),
          (lit "X-Content-Type-Options", lit "nosniff")], some 400,
         [(lit "Content-Type", lit "text/plain; charset=utf-8"),
          (lit "X-Content-Type-Options", lit "nosniff")],
         lit "Missing 'ip' query parameter" ++ [0x0A]⟩ := by
  decide

theorem wrapInt64_range (x : Int) : -(2 ^ 63) ≤ wrapInt64 x ∧ wrapInt64 x < 2 ^ 63 := by
  unfold wrapInt64
  constructor <;> omega

theorem subMono_range (t u : Int) : -(2 ^ 63) ≤ subMono t u ∧ subMono t u < 2 ^ 63 := by
  have h := wrapInt64_range (t - u)
  unfold subMono
  simp only
  split_ifs <;> constructor <;> omega

theorem Milliseconds_bound (t u : Int) : (Milliseconds (subMono t u)).natAbs < 10 ^ 20 := by
  have h := subMono_range t u
  unfold Milliseconds
  rw [Int.natAbs_tdiv]
  have h1 : (subMono t u).natAbs ≤ 2 ^ 63 := by omega
  have h2 : (subMono t u).natAbs.div (Int.natAbs 1000000) ≤ (subMono t u).natAbs :=
    Nat.div_le_self _ _
  omega

/-- The elapsed time between two readings of the monotonic clock that are 50 ms or more
apart: the difference itself when it is a `Duration`, and 50 ms or more in any case. -/
theorem subMono_elapsed (now later : Int) (h1 : -(2 ^ 63) ≤ now) (h2 : later < 2 ^ 63)
    (h3 : now + 50000000 ≤ later) :
    50 ≤ Milliseconds (subMono later now) ∧
    (later - now < 2 ^ 63 → Milliseconds (subMono later now) = (later - now).tdiv 1000000) := by
  unfold Milliseconds subMono wrapInt64
  simp only
  by_cases hfit : later - now < 2 ^ 63
  · have e : (later - now + 2 ^ 63) % 2 ^ 64 - 2 ^ 63 = later - now := by omega
    rw [e]
    have hn1 : ¬ (later - now < 0 ∧ later > now) := by omega
    have hn2 : ¬ (later - now > 0 ∧ later < now) := by omega
    simp only [hn1, hn2, if_false]
    refine ⟨?_, fun _ => trivial⟩
    rw [Int.tdiv_eq_ediv (by omega) (by norm_num)]
    omega
  · have e : (later - now + 2 ^ 63) % 2 ^ 64 - 2 ^ 63 = later - now - 2 ^ 64 := by omega
    rw [e]
    have hy : later - now - 2 ^ 64 < 0 ∧ later > now := by omega
    simp only [hy, and_self, if_true]
    refine ⟨by decide, fun h => absurd h hfit⟩

theorem serve_ok (env : Env) (stderr : GoString) (routes : List (GoString × GoString))
    (r : Request) (h : r.Query.Get (lit "ip") ≠ []) :
    serve env stderr routes r
      = ⟨⟨[(lit "Content-Type", lit "application/json")], some 200,
           [(lit "Content-Type", lit "application/json")],
           structEncode true (CheckResponse.fields
             { IPAddress := r.Query.Get (lit "ip"), Status := lit "OK_ANONYMOUS",
               CheckTimeMs := Milliseconds (subMono env.later env.now) }) ++ [0x0A]⟩,
         stderr ++ logOutput env.logHeader
           (lit "GO_HANDLER: Received check request for IP: " ++ r.Query.Get (lit "ip")),
         [.logPrintf (lit "GO_HANDLER: Received check request for IP: " ++ r.Query.Get (lit "ip")),
          .timeNow, .timeSleep 50000000, .timeSince],
         routes⟩ := by
  unfold serve
  rw [checkIPHandler_ok env _ r h]
  simp only [State.start, Encode_fresh, List.nil_append]

theorem serve_error (env : Env) (stderr : GoString) (routes : List (GoString × GoString))
    (r : Request) (h : r.Query.Get (lit "ip") = []) :
    serve env stderr routes r
      = ⟨⟨[(lit "Content-Type", lit "text/plain; charset=utf-8"),
           (lit "X-Content-Type-Options", lit "nosniff")], some 400,
          [(lit "Content-Type", lit "text/plain; charset=utf-8"),
           (lit "X-Content-Type-Options", lit "nosniff")],
          lit "Missing 'ip' query parameter" ++ [0x0A]⟩, stderr, [], routes⟩ := by
  unfold serve
  rw [checkIPHandler_error env _ r h]
  simp only [State.start, Error_fresh]

theorem serve_body_parse (env : Env) (stderr : GoString) (routes : List (GoString × GoString))
    (r : Request) (h : r.Query.Get (lit "ip") ≠ []) :
    parseObject (serve env stderr routes r).w.body
      = some [(lit "ip_address", .str (toValidUTF8 (r.Query.Get (lit "ip")))),
              (lit "status", .str (lit "OK_ANONYMOUS")),
              (lit "check_time_ms", .num (Milliseconds (subMono env.later env.now)))] := by
  rw [serve_ok env stderr routes r h]
  have hp := parseObject_Encode
    { IPAddress := r.Query.Get (lit "ip"), Status := lit "OK_ANONYMOUS",
      CheckTimeMs := Milliseconds (subMono env.later env.now) }
    (Milliseconds_bound _ _)
  have k : toValidUTF8 (lit "OK_ANONYMOUS") = lit "OK_ANONYMOUS" := by decide
  simp only [k] at hp
  exact hp

theorem serve_echo (env : Env) (stderr : GoString) (routes : List (GoString × GoString))
    (r : Request) (hne : r.Query.Get (lit "ip") ≠ []) :
    (serve env stderr routes r).w.status = some 200 ∧
    stringField (lit "ip_address") (serve env stderr routes r).w.body
      = some (toValidUTF8 (r.Query.Get (lit "ip"))) := by
  have hp := serve_body_parse env stderr routes r hne
  refine ⟨?_, ?_⟩
  · rw [serve_ok env stderr routes r hne]
  · unfold stringField
    rw [hp]
    rfl

theorem Get_nil_of_absent_or_empty (m : Values) (key : GoString)
    (h : m.lookup key = [] ∨ ∃ vs, m.lookup key = [] :: vs) : m.Get key = [] := by
  unfold Values.Get
  rcases h with h | ⟨vs, h⟩ <;> rw [h]

/-! ## The claims -/

/-- C1, as amended: for every request whose `ip` parameter is a non-empty string,
`checkIPHandler` answers with status 200 and a JSON body whose `ip_address`, once
decoded, is `ip` with every byte that is not part of well-formed UTF-8 replaced by
U+FFFD; it equals `ip` byte for byte whenever `ip` is well-formed UTF-8 (which covers
`<`, `>`, `&`, quotes and control bytes). -/
theorem c1_ip_address_echo (env : Env) (stderr : GoString)
    (routes : List (GoString × GoString)) (r : Request) (ip : GoString)
    (hip : r.Query.Get (lit "ip") = ip) (hne : ip ≠ []) :
    (serve env stderr routes r).w.status = some 200 ∧
    stringField (lit "ip_address") (serve env stderr routes r).w.body
      = some (toValidUTF8 ip) ∧
    (validUTF8 ip = true →
      stringField (lit "ip_address") (serve env stderr routes r).w.body = some ip) := by
  subst hip
  have he := serve_echo env stderr routes r hne
  refine ⟨he.1, he.2, ?_⟩
  intro hv
  rw [he.2, toValidUTF8_of_valid _ hv]

set_option maxRecDepth 100000 in
/-- C1, an instance: the request `/check?ip=8.8.8.8%3C%22%26%0A` has the `ip` value
`8.8.8.8<"&` followed by a line feed, and that is the decoded `ip_address`. -/
theorem c1_ip_address_echo_witness :
    (Request.Query ⟨lit "GET", lit "ip=8.8.8.8%3C%22%26%0A", []⟩).Get (lit "ip")
      = lit "8.8.8.8<\"&\n" ∧
    lit "8.8.8.8<\"&\n" ≠ [] ∧
    validUTF8 (lit "8.8.8.8<\"&\n") = true ∧
    (serve ⟨[], 0, 50000000⟩ [] [] ⟨lit "GET", lit "ip=8.8.8.8%3C%22%26%0A", []⟩).w.status
      = some 200 ∧
    stringField (lit "ip_address")
      (serve ⟨[], 0, 50000000⟩ [] [] ⟨lit "GET", lit "ip=8.8.8.8%3C%22%26%0A", []⟩).w.body
      = some (lit "8.8.8.8<\"&\n") :=
  ⟨by decide, by decide, by decide,
   (c1_ip_address_echo ⟨[], 0, 50000000⟩ [] [] ⟨lit "GET", lit "ip=8.8.8.8%3C%22%26%0A", []⟩
      (lit "8.8.8.8<\"&\n") (by decide) (by decide)).1,
   (c1_ip_address_echo ⟨[], 0, 50000000⟩ [] [] ⟨lit "GET", lit "ip=8.8.8.8%3C%22%26%0A", []⟩
      (lit "8.8.8.8<\"&\n") (by decide) (by decide)).2.2 (by decide)⟩

set_option maxRecDepth 100000 in
/-- C1 as stated fails: for the request `/check?ip=%ff` the `ip` value is the single byte
`0xFF`, and the decoded `ip_address` of the response is the three bytes of U+FFFD. -/
theorem c1_invalid_utf8_not_echoed :
    (Request.Query ⟨lit "GET", lit "ip=%ff", []⟩).Get (lit "ip") = [0xFF] ∧
    (serve ⟨[], 0, 50000000⟩ [] [] ⟨lit "GET", lit "ip=%ff", []⟩).w.status = some 200 ∧
    stringField (lit "ip_address")
      (serve ⟨[], 0, 50000000⟩ [] [] ⟨lit "GET", lit "ip=%ff", []⟩).w.body
      = some [0xEF, 0xBF, 0xBD] ∧
    stringField (lit "ip_address")
      (serve ⟨[], 0, 50000000⟩ [] [] ⟨lit "GET", lit "ip=%ff", []⟩).w.body
      ≠ some [0xFF] := by
  decide

/-- C2, as amended: for every request whose `ip` parameter is absent or whose first `ip`
value is empty, `checkIPHandler` answers with status 400 and a body that is exactly the
text `Missing 'ip' query parameter` followed by one line feed; the whole response is the
same in the two cases. -/
theorem c2_missing_ip (env : Env) (stderr : GoString) (routes : List (GoString × GoString))
    (r : Request)
    (h : r.Query.lookup (lit "ip") = [] ∨ ∃ vs, r.Query.lookup (lit "ip") = [] :: vs) :
    (serve env stderr routes r).w.status = some 400 ∧
    (serve env stderr routes r).w.body = lit "Missing 'ip' query parameter" ++ [0x0A] ∧
    (serve env stderr routes r).w
      = ⟨[(lit "Content-Type", lit "text/plain; charset=utf-8"),
          (lit "X-Content-Type-Options", lit "nosniff")], some 400,
         [(lit "Content-Type", lit "text/plain; charset=utf-8"),
          (lit "X-Content-Type-Options", lit "nosniff")],
         lit "Missing 'ip' query parameter" ++ [0x0A]⟩ := by
  rw [serve_error env stderr routes r (Get_nil_of_absent_or_empty _ _ h)]
  exact ⟨rfl, rfl, rfl⟩

set_option maxRecDepth 100000 in
/-- C2, two instances: `/check` (no `ip`) and `/check?ip=` (empty `ip`) get the same
response, status 400 with the message and a line feed. -/
theorem c2_missing_ip_witness :
    (Request.Query ⟨lit "GET", [], []⟩).lookup (lit "ip") = [] ∧
    (Request.Query ⟨lit "GET", lit "ip=", []⟩).lookup (lit "ip") = [[]] ∧
    (serve ⟨[], 0, 50000000⟩ [] [] ⟨lit "GET", [], []⟩).w.body
      = lit "Missing 'ip' query parameter\n" ∧
    (serve ⟨[], 0, 50000000⟩ [] [] ⟨lit "GET", lit "ip=", []⟩).w
      = (serve ⟨[], 0, 50000000⟩ [] [] ⟨lit "GET", [], []⟩).w :=
  ⟨by decide, by decide,
   (c2_missing_ip ⟨[], 0, 50000000⟩ [] [] ⟨lit "GET", [], []⟩ (Or.inl (by decide))).2.1.trans
     (by decide),
   (c2_missing_ip ⟨[], 0, 50000000⟩ [] [] ⟨lit "GET", lit "ip=", []⟩
     (Or.inr ⟨[], by decide⟩)).2.2.trans
     (c2_missing_ip ⟨[], 0, 50000000⟩ [] [] ⟨lit "GET", [], []⟩ (Or.inl (by decide))).2.2.symm⟩

set_option maxRecDepth 100000 in
/-- C2 as stated fails: the body of the 400 response to `/check?ip=` is not exactly the
text `Missing 'ip' query parameter`; a line feed follows it. -/
theorem c2_body_has_line_feed :
    (serve ⟨[], 0, 50000000⟩ [] [] ⟨lit "GET", lit "ip=", []⟩).w.status = some 400 ∧
    (serve ⟨[], 0, 50000000⟩ [] [] ⟨lit "GET", lit "ip=", []⟩).w.body
      ≠ lit "Missing 'ip' query parameter" ∧
    (serve ⟨[], 0, 50000000⟩ [] [] ⟨lit "GET", lit "ip=", []⟩).w.body
      = lit "Missing 'ip' query parameter" ++ [0x0A] := by
  decide

/-- C3: in every successful response, when the two readings of the monotonic clock are
`int64` values at least 50,000,000 ns apart (the sleep returned no earlier than asked),
`check_time_ms` is an integer that is at least 50, and it is the elapsed nanoseconds
divided by 1,000,000 with truncation whenever the elapsed time is a `Duration`. -/
theorem c3_check_time_ms (env : Env) (stderr : GoString)
    (routes : List (GoString × GoString)) (r : Request)
    (hne : r.Query.Get (lit "ip") ≠ [])
    (h1 : -(2 ^ 63) ≤ env.now) (h2 : env.later < 2 ^ 63)
    (h3 : env.now + 50000000 ≤ env.later) :
    intField (lit "check_time_ms") (serve env stderr routes r).w.body
      = some (Milliseconds (subMono env.later env.now)) ∧
    50 ≤ Milliseconds (subMono env.later env.now) ∧
    (env.later - env.now < 2 ^ 63 →
      Milliseconds (subMono env.later env.now) = (env.later - env.now).tdiv 1000000) := by
  have hp := serve_body_parse env stderr routes r hne
  have he := subMono_elapsed env.now env.later h1 h2 h3
  refine ⟨?_, he.1, he.2⟩
  unfold intField
  rw [hp]
  rfl

set_option maxRecDepth 100000 in
/-- C3, an instance: readings 1,000 ns and 50,124,456 ns give `check_time_ms` 50. -/
theorem c3_check_time_ms_witness :
    (Request.Query ⟨lit "GET", lit "ip=8.8.8.8", []⟩).Get (lit "ip") ≠ [] ∧
    intField (lit "check_time_ms")
      (serve ⟨[], 1000, 50124456⟩ [] [] ⟨lit "GET", lit "ip=8.8.8.8", []⟩).w.body = some 50 :=
  ⟨by decide,
   (c3_check_time_ms ⟨[], 1000, 50124456⟩ [] [] ⟨lit "GET", lit "ip=8.8.8.8", []⟩ (by decide)
     (by decide) (by decide) (by decide)).1.trans (by decide)⟩

/-- C4: for every request on the success path (non-empty `ip`), the `status` of the
response is exactly `OK_ANONYMOUS`, whatever the `ip` and the clock readings. -/
theorem c4_status_literal (env : Env) (stderr : GoString)
    (routes : List (GoString × GoString)) (r : Request)
    (hne : r.Query.Get (lit "ip") ≠ []) :
    stringField (lit "status") (serve env stderr routes r).w.body
      = some (lit "OK_ANONYMOUS") := by
  have hp := serve_body_parse env stderr routes r hne
  unfold stringField
  rw [hp]
  rfl

set_option maxRecDepth 100000 in
/-- C4, an instance: the response to `/check?ip=%ff%0a` has status `OK_ANONYMOUS`. -/
theorem c4_status_literal_witness :
    (Request.Query ⟨lit "POST", lit "ip=%ff%0a", []⟩).Get (lit "ip") ≠ [] ∧
    stringField (lit "status")
      (serve ⟨[], 7, 3⟩ [] [] ⟨lit "POST", lit "ip=%ff%0a", []⟩).w.body
      = some (lit "OK_ANONYMOUS") :=
  ⟨by decide, c4_status_literal ⟨[], 7, 3⟩ [] [] ⟨lit "POST", lit "ip=%ff%0a", []⟩ (by decide)⟩

theorem structEncode_text (ip : GoString) (ms : Int) :
    structEncode true (CheckResponse.fields
        { IPAddress := ip, Status := lit "OK_ANONYMOUS", CheckTimeMs := ms }) ++ [0x0A]
      = lit "\x7b\"ip_address\":" ++ appendString ip true
          ++ lit ",\"status\":\"OK_ANONYMOUS\",\"check_time_ms\":" ++ FormatInt ms
          ++ lit "\x7d\n" := by
  have a1 : appendString (lit "ip_address") true = lit "\"ip_address\"" := by decide
  have a2 : appendString (lit "status") true = lit "\"status\"" := by decide
  have a3 : appendString (lit "OK_ANONYMOUS") true = lit "\"OK_ANONYMOUS\"" := by decide
  have a4 : appendString (lit "check_time_ms") true = lit "\"check_time_ms\"" := by decide
  simp only [structEncode, CheckResponse.fields, encodeFields, encodeValue, a1, a2, a3, a4]
  simp [lit]

/-- C5: for every non-empty `ip`, the success response is sent with the header
`Content-Type: application/json`, and its body is the text of one JSON object with
exactly the members `ip_address`, `status`, `check_time_ms`, in that order, the first two
JSON strings and the third a JSON integer, followed by the line feed that ends every
value an `Encoder` writes; for `ip` = `8.8.8.8` and 50 ms the object is
`{"ip_address":"8.8.8.8","status":"OK_ANONYMOUS","check_time_ms":50}`. -/
theorem c5_json_body (env : Env) (stderr : GoString) (routes : List (GoString × GoString))
    (r : Request) (ip : GoString) (hip : r.Query.Get (lit "ip") = ip) (hne : ip ≠ []) :
    (serve env stderr routes r).w.sentHeader.Get (lit "Content-Type")
      = lit "application/json" ∧
    (serve env stderr routes r).w.body
      = lit "\x7b\"ip_address\":" ++ appendString ip true
          ++ lit ",\"status\":\"OK_ANONYMOUS\",\"check_time_ms\":"
          ++ FormatInt (Milliseconds (subMono env.later env.now)) ++ lit "\x7d\n" ∧
    parseObject (serve env stderr routes r).w.body
      = some [(lit "ip_address", .str (toValidUTF8 ip)),
              (lit "status", .str (lit "OK_ANONYMOUS")),
              (lit "check_time_ms", .num (Milliseconds (subMono env.later env.now)))] ∧
    (ip = lit "8.8.8.8" → Milliseconds (subMono env.later env.now) = 50 →
      (serve env stderr routes r).w.body
        = lit "\x7b\"ip_address\":\"8.8.8.8\",\"status\":\"OK_ANONYMOUS\",\"check_time_ms\":50\x7d"
            ++ [0x0A]) := by
  subst hip
  have hp := serve_body_parse env stderr routes r hne
  refine ⟨?_, ?_, hp, ?_⟩
  · rw [serve_ok env stderr routes r hne]
    exact (by decide : Header.Get [(lit "Content-Type", lit "application/json")]
      (lit "Content-Type") = lit "application/json")
  · rw [serve_ok env stderr routes r hne]
    exact structEncode_text _ _
  · intro h8 h50
    rw [serve_ok env stderr routes r hne]
    simp only [h8, h50]
    decide

set_option maxRecDepth 100000 in
/-- C5, an instance: the response to `/check?ip=8.8.8.8` with 50 ms elapsed; its body
decodes to the same object as the text given in the claim. -/
theorem c5_json_body_witness :
    (Request.Query ⟨lit "GET", lit "ip=8.8.8.8", []⟩).Get (lit "ip") = lit "8.8.8.8" ∧
    lit "8.8.8.8" ≠ [] ∧
    (serve ⟨[], 0, 50000000⟩ [] [] ⟨lit "GET", lit "ip=8.8.8.8", []⟩).w.body
      = lit "\x7b\"ip_address\":\"8.8.8.8\",\"status\":\"OK_ANONYMOUS\",\"check_time_ms\":50\x7d\n" ∧
    parseObject (serve ⟨[], 0, 50000000⟩ [] [] ⟨lit "GET", lit "ip=8.8.8.8", []⟩).w.body
      = parseObject
          (lit "\x7b\"ip_address\":\"8.8.8.8\",\"status\":\"OK_ANONYMOUS\",\"check_time_ms\":50\x7d") :=
  ⟨by decide, by decide,
   ((c5_json_body ⟨[], 0, 50000000⟩ [] [] ⟨lit "GET", lit "ip=8.8.8.8", []⟩ (lit "8.8.8.8")
      (by decide) (by decide)).2.2.2 rfl (by decide)).trans (by decide),
   ((c5_json_body ⟨[], 0, 50000000⟩ [] [] ⟨lit "GET", lit "ip=8.8.8.8", []⟩ (lit "8.8.8.8")
      (by decide) (by decide)).2.2.1).trans (by decide)⟩

/-- C6: when the `ip` parameter is missing or empty, `checkIPHandler` does nothing but
write the 400 error: no effect is performed (no log call, no clock reading, no sleep), the
log output and the routes are as before, the result does not depend on the clock, the
content type sent is the plain-text one and not `application/json`, and the body is the
error text, which is not a JSON object. -/
theorem c6_error_path_frame (env env2 : Env) (stderr : GoString)
    (routes : List (GoString × GoString)) (r : Request)
    (h : r.Query.lookup (lit "ip") = [] ∨ ∃ vs, r.Query.lookup (lit "ip") = [] :: vs) :
    (serve env stderr routes r).trace = [] ∧
    (serve env stderr routes r).stderr = stderr ∧
    (serve env stderr routes r).routes = routes ∧
    serve env stderr routes r = serve env2 stderr routes r ∧
    (serve env stderr routes r).w.sentHeader.Get (lit "Content-Type")
      = lit "text/plain; charset=utf-8" ∧
    (serve env stderr routes r).w.header.Get (lit "Content-Type")
      ≠ lit "application/json" ∧
    (serve env stderr routes r).w.body = lit "Missing 'ip' query parameter" ++ [0x0A] ∧
    parseObject (serve env stderr routes r).w.body = none := by
  have hg := Get_nil_of_absent_or_empty _ _ h
  rw [serve_error env stderr routes r hg, serve_error env2 stderr routes r hg]
  have k1 : Header.Get [(lit "Content-Type", lit "text/plain; charset=utf-8"),
      (lit "X-Content-Type-Options", lit "nosniff")] (lit "Content-Type")
        = lit "text/plain; charset=utf-8" := by decide
  have k2 : Header.Get [(lit "Content-Type", lit "text/plain; charset=utf-8"),
      (lit "X-Content-Type-Options", lit "nosniff")] (lit "Content-Type")
        ≠ lit "application/json" := by decide
  have k3 : parseObject (lit "Missing 'ip' query parameter" ++ [0x0A]) = none := by decide
  exact ⟨rfl, rfl, rfl, rfl, k1, k2, rfl, k3⟩

set_option maxRecDepth 100000 in
/-- C6, an instance: the request `/check?x=1` with log output `old` and a route. -/
theorem c6_error_path_frame_witness :
    (Request.Query ⟨lit "GET", lit "x=1", []⟩).lookup (lit "ip") = [] ∧
    serve ⟨[], 5, 9⟩ (lit "old") [(lit "/check", lit "checkIPHandler")]
        ⟨lit "GET", lit "x=1", []⟩
      = ⟨⟨[(lit "Content-Type", lit "text/plain; charset=utf-8"),
           (lit "X-Content-Type-Options", lit "nosniff")], some 400,
          [(lit "Content-Type", lit "text/plain; charset=utf-8"),
           (lit "X-Content-Type-Options", lit "nosniff")],
          lit "Missing 'ip' query parameter\n"⟩,
         lit "old", [], [(lit "/check", lit "checkIPHandler")]⟩ :=
  ⟨by decide,
   ((c6_error_path_frame ⟨[], 5, 9⟩ ⟨[], 0, 0⟩ (lit "old") [(lit "/check", lit "checkIPHandler")]
      ⟨lit "GET", lit "x=1", []⟩ (Or.inl (by decide))).2.2.2.1).trans (by decide)⟩

theorem logOutput_one_line (hdr ip : GoString) (h1 : 0x0A ∉ ip)
    (h2 : 0x0A ∉ hdr) :
    logOutput hdr (lit "GO_HANDLER: Received check request for IP: " ++ ip)
      = hdr ++ lit "GO_HANDLER: Received check request for IP: " ++ ip ++ [0x0A] ∧
    lineCount (logOutput hdr (lit "GO_HANDLER: Received check request for IP: " ++ ip)) = 1 := by
  have hlast : (lit "GO_HANDLER: Received check request for IP: " ++ ip).getLast? ≠ some 0x0A := by
    intro h
    have hm := List.mem_of_getLast?_eq_some h
    rw [List.mem_append] at hm
    rcases hm with hm | hm
    · revert hm; decide
    · exact h1 hm
  have hp : List.count 0x0A (lit "GO_HANDLER: Received check request for IP: ") = 0 := by
    decide
  have e : logOutput hdr (lit "GO_HANDLER: Received check request for IP: " ++ ip)
      = hdr ++ lit "GO_HANDLER: Received check request for IP: " ++ ip ++ [0x0A] := by
    unfold logOutput
    simp only [hlast, if_false, List.append_assoc]
  refine ⟨e, ?_⟩
  rw [e]
  unfold lineCount
  simp only [List.count_append, hp, List.count_eq_zero_of_not_mem h1,
    List.count_eq_zero_of_not_mem h2]
  decide

/-- C7, as amended: for every request with a non-empty `ip`, `checkIPHandler` makes
exactly one call of the logger, with the message `GO_HANDLER: Received check request for
IP: ` followed by `ip` verbatim, then reads the clock, sleeps 50 ms and reads the clock
again, and does nothing else: the log output grows by that one record and the routes (the
package-level state) are unchanged. The record is a single line of text whenever `ip`
(and the logger's date header) contains no line feed. -/
theorem c7_one_log_record (env : Env) (stderr : GoString)
    (routes : List (GoString × GoString)) (r : Request) (ip : GoString)
    (hip : r.Query.Get (lit "ip") = ip) (hne : ip ≠ []) :
    (serve env stderr routes r).trace
      = [.logPrintf (lit "GO_HANDLER: Received check request for IP: " ++ ip),
         .timeNow, .timeSleep 50000000, .timeSince] ∧
    (serve env stderr routes r).stderr
      = stderr ++ logOutput env.logHeader
          (lit "GO_HANDLER: Received check request for IP: " ++ ip) ∧
    (serve env stderr routes r).routes = routes ∧
    (0x0A ∉ ip → 0x0A ∉ env.logHeader →
      logOutput env.logHeader (lit "GO_HANDLER: Received check request for IP: " ++ ip)
        = env.logHeader ++ lit "GO_HANDLER: Received check request for IP: " ++ ip ++ [0x0A] ∧
      lineCount (logOutput env.logHeader
        (lit "GO_HANDLER: Received check request for IP: " ++ ip)) = 1) := by
  subst hip
  rw [serve_ok env stderr routes r hne]
  exact ⟨rfl, rfl, rfl, fun h1 h2 => logOutput_one_line _ _ h1 h2⟩

set_option maxRecDepth 100000 in
/-- C7, an instance: the request `/check?ip=8.8.8.8` adds the one line
`2024/01/01 00:00:00 GO_HANDLER: Received check request for IP: 8.8.8.8`. -/
theorem c7_one_log_record_witness :
    (Request.Query ⟨lit "GET", lit "ip=8.8.8.8", []⟩).Get (lit "ip") = lit "8.8.8.8" ∧
    lit "8.8.8.8" ≠ [] ∧
    (serve ⟨lit "2024/01/01 00:00:00 ", 0, 50000000⟩ [] [] ⟨lit "GET", lit "ip=8.8.8.8", []⟩).stderr
      = lit "2024/01/01 00:00:00 GO_HANDLER: Received check request for IP: 8.8.8.8\n" ∧
    lineCount (logOutput (lit "2024/01/01 00:00:00 ")
      (lit "GO_HANDLER: Received check request for IP: " ++ lit "8.8.8.8")) = 1 :=
  ⟨by decide, by decide,
   ((c7_one_log_record ⟨lit "2024/01/01 00:00:00 ", 0, 50000000⟩ [] []
      ⟨lit "GET", lit "ip=8.8.8.8", []⟩ (lit "8.8.8.8") (by decide) (by decide)).2.1).trans
      (by decide),
   ((c7_one_log_record ⟨lit "2024/01/01 00:00:00 ", 0, 50000000⟩ [] []
      ⟨lit "GET", lit "ip=8.8.8.8", []⟩ (lit "8.8.8.8") (by decide) (by decide)).2.2.2
      (by decide) (by decide)).2⟩

set_option maxRecDepth 100000 in
/-- C7 as stated fails: for the request `/check?ip=a%0Ab` the one call of the logger
writes two lines, and `ip` is on neither of them whole. -/
theorem c7_two_log_lines :
    (Request.Query ⟨lit "GET", lit "ip=a%0Ab", []⟩).Get (lit "ip") = lit "a\nb" ∧
    (serve ⟨lit "2024/01/01 00:00:00 ", 0, 50000000⟩ [] [] ⟨lit "GET", lit "ip=a%0Ab", []⟩).stderr
      = lit "2024/01/01 00:00:00 GO_HANDLER: Received check request for IP: a\nb\n" ∧
    lineCount
      (serve ⟨lit "2024/01/01 00:00:00 ", 0, 50000000⟩ [] []
        ⟨lit "GET", lit "ip=a%0Ab", []⟩).stderr = 2 := by
  decide

theorem Sprintf_fatal (err : GoString) :
    Sprintf (lit "Failed to start Go microservice: %v") [.err err]
      = lit "Failed to start Go microservice: " ++ err := by
  simp [Sprintf, lit, Arg.render]

/-- C9: `main` registers `checkIPHandler` for the one route `/check`, prints the banner
and starts the listener on `:8081`; when the listener returns an error, `main` logs
`Failed to start Go microservice: ` with the error and the process exits with status 1;
when it does not, the process does not exit and nothing is logged; so the process ends
itself exactly when the listener returns an error. -/
theorem c9_main (logHeader : GoString) (listen : GoString → ListenResult) :
    (main logHeader listen Process.init).routes = [(lit "/check", lit "checkIPHandler")] ∧
    (main logHeader listen Process.init).stdout
      = lit "Go microservice listening on http://localhost:8081\n" ∧
    (main logHeader listen Process.init).listenAddr = some (lit ":8081") ∧
    (∀ err, listen (lit ":8081") = .fails err →
      (main logHeader listen Process.init).exitStatus = some 1 ∧
      (main logHeader listen Process.init).stderr
        = logOutput logHeader (lit "Failed to start Go microservice: " ++ err)) ∧
    (listen (lit ":8081") = .servesForever →
      (main logHeader listen Process.init).exitStatus = none ∧
      (main logHeader listen Process.init).stderr = []) ∧
    ((main logHeader listen Process.init).exitStatus ≠ none ↔
      ∃ err, listen (lit ":8081") = .fails err) := by
  have ha : Sprintf (lit ":%d") [.int 8081] = lit ":8081" := by decide
  have hb : Sprintf (lit "Go microservice listening on http://localhost:%d\n") [.int 8081]
      = lit "Go microservice listening on http://localhost:8081\n" := by decide
  unfold main
  simp only [ha, hb, Process.init, List.nil_append]
  refine ⟨?_, ?_, ?_, ?_, ?_, ?_⟩
  · cases listen (lit ":8081") <;> rfl
  · cases listen (lit ":8081") <;> rfl
  · cases listen (lit ":8081") <;> rfl
  · intro err he
    rw [he]
    simp [Fatalf, Sprintf_fatal]
  · intro he
    rw [he]
    exact ⟨rfl, rfl⟩
  · cases he : listen (lit ":8081") with
    | servesForever => simp
    | fails err => simp [Fatalf]

set_option maxRecDepth 100000 in
/-- C9, an instance: the port is taken, the process exits with status 1. -/
theorem c9_main_witness :
    (main (lit "2024/01/01 00:00:00 ")
        (fun _ => .fails (lit "listen tcp :8081: bind: address already in use"))
        Process.init).exitStatus = some 1 ∧
    (main (lit "2024/01/01 00:00:00 ")
        (fun _ => .fails (lit "listen tcp :8081: bind: address already in use"))
        Process.init).stderr
      = lit ("2024/01/01 00:00:00 Failed to start Go microservice: "
          ++ "listen tcp :8081: bind: address already in use\n") :=
  ⟨((c9_main (lit "2024/01/01 00:00:00 ")
      (fun _ => .fails (lit "listen tcp :8081: bind: address already in use"))).2.2.2.1
      _ rfl).1,
   (((c9_main (lit "2024/01/01 00:00:00 ")
      (fun _ => .fails (lit "listen tcp :8081: bind: address already in use"))).2.2.2.1
      _ rfl).2).trans (by decide)⟩

/-! ## `parseQuery`, piece by piece -/

theorem Cut_no_sep (sep : Nat) (p : GoString) (h : sep ∉ p) : Cut sep p = (p, []) := by
  induction p with
  | nil => rfl
  | cons c t ih =>
    have hc : c ≠ sep := fun e => h (by simp [e])
    have ht : sep ∉ t := fun e => h (by simp [e])
    simp [Cut, hc, ih ht]

theorem Cut_sep (sep : Nat) (p rest : GoString) (h : sep ∉ p) :
    Cut sep (p ++ sep :: rest) = (p, rest) := by
  induction p with
  | nil => simp [Cut]
  | cons c t ih =>
    have hc : c ≠ sep := fun e => h (by simp [e])
    have ht : sep ∉ t := fun e => h (by simp [e])
    simp [Cut, hc, ih ht]

theorem parseQueryLoop_nil (f : Nat) (m : Values) : parseQueryLoop f m [] = m := by
  cases f <;> rfl

theorem parseQueryLoop_step (f : Nat) (m : Values) (c : Nat) (cs : GoString) :
    parseQueryLoop (f + 1) m (c :: cs)
      = parseQueryLoop f (addPair m (Cut 0x26 (c :: cs)).1) (Cut 0x26 (c :: cs)).2 := by
  rw [parseQueryLoop]
  simp only [addPair, pairOf]
  generalize (Cut 0x26 (c :: cs)).1 = key
  generalize (Cut 0x26 (c :: cs)).2 = query2
  split_ifs with h1 h2
  · rfl
  · rfl
  · cases QueryUnescape (Cut 0x3D key).1 <;> cases QueryUnescape (Cut 0x3D key).2 <;> rfl

/-- Reading a query string made of pieces is reading the pieces one after the other. -/
theorem parseQueryLoop_joinAmp (ps : List GoString) (hamp : ∀ p ∈ ps, 0x26 ∉ p) :
    ∀ (f : Nat) (m : Values), (joinAmp ps).length ≤ f →
      parseQueryLoop f m (joinAmp ps) = ps.foldl addPair m := by
  induction ps with
  | nil =>
    intro f m _
    exact parseQueryLoop_nil f m
  | cons p ps ih =>
    intro f m hf
    have hp : 0x26 ∉ p := hamp p (by simp)
    have hps : ∀ q ∈ ps, 0x26 ∉ q := fun q hq => hamp q (by simp [hq])
    cases ps with
    | nil =>
      simp only [joinAmp, List.foldl_cons, List.foldl_nil] at hf ⊢
      cases p with
      | nil =>
        rw [parseQueryLoop_nil]
        rfl
      | cons c cs =>
        obtain ⟨f', rfl⟩ : ∃ f', f = f' + 1 := ⟨f - 1, by simp at hf; omega⟩
        rw [parseQueryLoop_step, Cut_no_sep _ _ hp, parseQueryLoop_nil]
    | cons q qs =>
      have hj : joinAmp (p :: q :: qs) = p ++ 0x26 :: joinAmp (q :: qs) := rfl
      rw [hj] at hf ⊢
      simp only [List.length_append, List.length_cons] at hf
      obtain ⟨f', rfl⟩ : ∃ f', f = f' + 1 := ⟨f - 1, by omega⟩
      have hne : ∃ c cs, p ++ 0x26 :: joinAmp (q :: qs) = c :: cs := by
        cases p with
        | nil => exact ⟨_, _, rfl⟩
        | cons c cs => exact ⟨_, _, rfl⟩
      obtain ⟨c, cs, hc⟩ := hne
      have hcut := Cut_sep 0x26 p (joinAmp (q :: qs)) hp
      rw [hc] at hcut
      rw [hc, parseQueryLoop_step, hcut]
      simp only [List.foldl_cons]
      exact ih hps f' (addPair m p) (by omega)

/-- The `&` bytes of a query string made of pieces without `&`: one fewer than pieces. -/
theorem count_joinAmp (ps : List GoString) (hamp : ∀ p ∈ ps, 0x26 ∉ p) :
    ∀ p, 0x26 ∉ p → (joinAmp (p :: ps)).count 0x26 = ps.length := by
  induction ps with
  | nil =>
    intro p hp
    simpa [joinAmp] using List.count_eq_zero_of_not_mem hp
  | cons q qs ih =>
    intro p hp
    have hq : 0x26 ∉ q := hamp q (by simp)
    have hqs : ∀ x ∈ qs, 0x26 ∉ x := fun x hx => hamp x (by simp [hx])
    have hj : joinAmp (p :: q :: qs) = p ++ 0x26 :: joinAmp (q :: qs) := rfl
    rw [hj, List.count_append, List.count_eq_zero_of_not_mem hp, List.count_cons_self,
      ih hqs q hq]
    simp

/-- The parameter limit of `parseQuery`, said of the pieces. -/
theorem withinMax_joinAmp (ps : List GoString) (hamp : ∀ p ∈ ps, 0x26 ∉ p) :
    urlParamsWithinMax ((joinAmp ps).count 0x26 + 1) = decide (ps.length ≤ defaultMaxParams) := by
  cases ps with
  | nil => decide
  | cons p ps =>
    rw [count_joinAmp ps (fun x hx => hamp x (by simp [hx])) p (hamp p (by simp))]
    rfl

theorem lookup_add (m : Values) (k v key : GoString) :
    (m.add k v).lookup key
      = if k = key then m.lookup key ++ [v] else m.lookup key := by
  induction m with
  | nil =>
    by_cases h : k = key <;> simp [Values.add, Values.lookup, h]
  | cons kv m ih =>
    obtain ⟨k', vs⟩ := kv
    by_cases h1 : k' = k
    · subst h1
      by_cases h : k' = key <;> simp [Values.add, Values.lookup, h]
    · by_cases h : k = key
      · subst h
        simp only [Values.add, h1, if_false, Values.lookup, ih, if_true]
      · by_cases h2 : k' = key
        · subst h2
          simp [Values.add, Values.lookup, h1, h]
        · simp [Values.add, Values.lookup, h1, h, h2, ih]

theorem Get_of_lookup (m : Values) (key v : GoString) (vs : List GoString)
    (h : m.lookup key = v :: vs) : m.Get key = v := by
  simp [Values.Get, h]

/-- Once a key has a value, later pieces do not change what `Get` returns for it. -/
theorem Get_foldl_of_present (ps : List GoString) (key : GoString) :
    ∀ (m : Values) (v : GoString) (vs : List GoString), m.lookup key = v :: vs →
      (ps.foldl addPair m).Get key = v := by
  induction ps with
  | nil =>
    intro m v vs h
    exact Get_of_lookup m key v vs h
  | cons p ps ih =>
    intro m v vs h
    simp only [List.foldl_cons]
    unfold addPair
    cases hp : pairOf p with
    | none => exact ih m v vs h
    | some kv =>
      obtain ⟨k, w⟩ := kv
      by_cases hk : k = key
      · exact ih (m.add k w) v (vs ++ [w]) (by rw [lookup_add, if_pos hk, h]; rfl)
      · exact ih (m.add k w) v vs (by rw [lookup_add, if_neg hk, h])

/-- What `Get` returns after the pieces are read: the value of the first well-formed
pair with the key. -/
theorem Get_foldl_of_absent (ps : List GoString) (key : GoString) :
    ∀ (m : Values), m.lookup key = [] →
      (ps.foldl addPair m).Get key = (firstValue key ps).getD [] := by
  induction ps with
  | nil =>
    intro m h
    simp [Values.Get, h, firstValue]
  | cons p ps ih =>
    intro m h
    simp only [List.foldl_cons]
    unfold addPair firstValue
    cases hp : pairOf p with
    | none => exact ih m h
    | some kv =>
      obtain ⟨k, w⟩ := kv
      by_cases hk : k = key
      · simp only [hk, if_true, Option.getD_some]
        exact Get_foldl_of_present ps key _ w [] (by rw [lookup_add, if_pos rfl, h]; rfl)
      · simp only [hk, if_false]
        exact ih (m.add k w) (by rw [lookup_add, if_neg hk, h])

/-- What `Get` returns for a request whose query string is made of the given pieces. -/
theorem Query_Get_joinAmp (r : Request) (ps : List GoString) (key : GoString)
    (hq : r.RawQuery = joinAmp ps) (hamp : ∀ p ∈ ps, 0x26 ∉ p) :
    r.Query.Get key = queryValue key ps := by
  unfold Request.Query parseQuery queryValue
  rw [hq, withinMax_joinAmp ps hamp]
  by_cases hl : ps.length ≤ defaultMaxParams
  · simp only [hl, decide_True, if_true]
    rw [parseQueryLoop_joinAmp ps hamp _ _ (Nat.le_refl _)]
    exact Get_foldl_of_absent ps key [] rfl
  · simp only [hl, decide_False, Bool.false_eq_true, if_false]
    rfl

theorem joinAmp_replicate (n : Nat) :
    ∀ p : GoString, joinAmp (p :: List.replicate n []) = p ++ List.replicate n 0x26 := by
  induction n with
  | zero => intro p; simp [joinAmp]
  | succ n ih =>
    intro p
    have hj : joinAmp (p :: List.replicate (n + 1) [])
        = p ++ 0x26 :: joinAmp ([] :: List.replicate n []) := rfl
    rw [hj, ih []]
    simp [List.replicate_succ]

theorem noAmp_replicate (p : GoString) (n : Nat) (hp : 0x26 ∉ p) :
    ∀ x ∈ p :: List.replicate n ([] : GoString), 0x26 ∉ x := by
  intro x hx
  rcases List.mem_cons.mp hx with h | h
  · rw [h]; exact hp
  · rw [List.eq_of_mem_replicate h]
    exact List.not_mem_nil _

theorem queryValue_over (key p : GoString) (n : Nat) (hn : defaultMaxParams ≤ n) :
    queryValue key (p :: List.replicate n []) = [] := by
  unfold queryValue
  rw [if_neg]
  rw [List.length_cons, List.length_replicate]
  omega

theorem queryValue_head (key p v : GoString) (n : Nat) (hp : pairOf p = some (key, v))
    (hn : n < defaultMaxParams) : queryValue key (p :: List.replicate n []) = v := by
  unfold queryValue
  rw [if_pos (by rw [List.length_cons, List.length_replicate]; omega)]
  unfold firstValue
  rw [hp]
  simp only [if_true, Option.getD_some]

/-- A request whose query string is a piece followed by 10000 `&` or more is over the
parameter limit: nothing is parsed, whatever the piece. -/
theorem Query_Get_over_limit (method body p key : GoString) (n : Nat)
    (hn : defaultMaxParams ≤ n) (hp : 0x26 ∉ p) :
    (Request.Query ⟨method, p ++ List.replicate n 0x26, body⟩).Get key = [] := by
  rw [Query_Get_joinAmp ⟨method, p ++ List.replicate n 0x26, body⟩
    (p :: List.replicate n []) key (joinAmp_replicate n p).symm (noAmp_replicate p n hp)]
  exact queryValue_over key p n hn

theorem serve_congr (env : Env) (stderr : GoString) (routes : List (GoString × GoString))
    (r r2 : Request) (h : r.Query.Get (lit "ip") = r2.Query.Get (lit "ip")) :
    serve env stderr routes r = serve env stderr routes r2 := by
  by_cases he : r.Query.Get (lit "ip") = []
  · rw [serve_error env stderr routes r he, serve_error env stderr routes r2 (h ▸ he)]
  · rw [serve_ok env stderr routes r he, serve_ok env stderr routes r2 (h ▸ he), h]

/-- C10, as amended: `checkIPHandler` decides from `queryValue`, the value of the first
well-formed `ip` pair of the query string (a pair is well-formed when it has no `;` and
its key and value percent-decode without error; other pieces are skipped), which is there
only when the query string has at most 10000 `&`-separated pieces; the method and the
request body play no part. Two requests with the same such value get the same result;
when it is empty, or there is no such pair, or there are more than 10000 pieces, the
response is the 400 error; when it is non-empty the response is the 200 response for it,
later pairs being ignored: `ip_address` is that value with every byte that is not part
of well-formed UTF-8 replaced by U+FFFD, so the value itself when it is well-formed
UTF-8. -/
theorem c10_first_well_formed_pair (env : Env) (stderr : GoString)
    (routes : List (GoString × GoString)) (r r2 : Request) (ps ps2 : List GoString)
    (hq : r.RawQuery = joinAmp ps) (hq2 : r2.RawQuery = joinAmp ps2)
    (hamp : ∀ p ∈ ps, 0x26 ∉ p) (hamp2 : ∀ p ∈ ps2, 0x26 ∉ p) :
    r.Query.Get (lit "ip") = queryValue (lit "ip") ps ∧
    (ps.length ≤ 10000 →
      queryValue (lit "ip") ps = (firstValue (lit "ip") ps).getD []) ∧
    (10000 < ps.length → queryValue (lit "ip") ps = []) ∧
    (queryValue (lit "ip") ps = queryValue (lit "ip") ps2 →
      serve env stderr routes r = serve env stderr routes r2) ∧
    (queryValue (lit "ip") ps = [] →
      (serve env stderr routes r).w.status = some 400 ∧
      (serve env stderr routes r).w.body = lit "Missing 'ip' query parameter" ++ [0x0A]) ∧
    (queryValue (lit "ip") ps ≠ [] →
      (serve env stderr routes r).w.status = some 200 ∧
      stringField (lit "ip_address") (serve env stderr routes r).w.body
        = some (toValidUTF8 (queryValue (lit "ip") ps)) ∧
      (validUTF8 (queryValue (lit "ip") ps) = true →
        stringField (lit "ip_address") (serve env stderr routes r).w.body
          = some (queryValue (lit "ip") ps))) := by
  have hg := Query_Get_joinAmp r ps (lit "ip") hq hamp
  have hg2 := Query_Get_joinAmp r2 ps2 (lit "ip") hq2 hamp2
  refine ⟨hg, ?_, ?_, ?_, ?_, ?_⟩
  · intro hl
    have hl2 : ps.length ≤ defaultMaxParams := hl
    simp only [queryValue, hl2, if_true]
  · intro hl
    have hl2 : ¬ ps.length ≤ defaultMaxParams := by
      unfold defaultMaxParams; omega
    simp only [queryValue, hl2, if_false]
  · intro h
    exact serve_congr env stderr routes r r2 (by rw [hg, hg2, h])
  · intro h
    rw [serve_error env stderr routes r (by rw [hg, h])]
    exact ⟨rfl, rfl⟩
  · intro hne
    have h1 := serve_echo env stderr routes r (by rw [hg]; exact hne)
    rw [hg] at h1
    refine ⟨h1.1, h1.2, ?_⟩
    intro hv
    rw [h1.2, toValidUTF8_of_valid _ hv]

set_option maxRecDepth 100000 in
/-- C10, five instances: `?ip=1.1.1.1&ip=8.8.8.8` echoes `1.1.1.1`, and a `POST` with a
body and the query `x=%zz&ip=1.1.1.1` gets the same result; `?ip=&ip=8.8.8.8` gets the 400
error; so does `?ip=1.1.1.1` followed by 10000 `&`, which is over the limit; followed by
9999 `&` it is within the limit and gets the 200 response. -/
theorem c10_first_well_formed_pair_witness :
    (∀ p ∈ [lit "ip=1.1.1.1", lit "ip=8.8.8.8"], 0x26 ∉ p) ∧
    (∀ p ∈ [lit "x=%zz", lit "ip=1.1.1.1"], 0x26 ∉ p) ∧
    (∀ p ∈ [lit "ip=", lit "ip=8.8.8.8"], 0x26 ∉ p) ∧
    stringField (lit "ip_address")
      (serve ⟨[], 0, 50000000⟩ [] [] ⟨lit "GET", lit "ip=1.1.1.1&ip=8.8.8.8", []⟩).w.body
      = some (lit "1.1.1.1") ∧
    serve ⟨[], 0, 50000000⟩ [] [] ⟨lit "GET", lit "ip=1.1.1.1&ip=8.8.8.8", []⟩
      = serve ⟨[], 0, 50000000⟩ [] [] ⟨lit "POST", lit "x=%zz&ip=1.1.1.1", lit "ip=9.9.9.9"⟩ ∧
    (serve ⟨[], 0, 50000000⟩ [] [] ⟨lit "GET", lit "ip=&ip=8.8.8.8", []⟩).w.status
      = some 400 ∧
    (serve ⟨[], 0, 50000000⟩ [] []
      ⟨lit "GET", lit "ip=1.1.1.1" ++ List.replicate 10000 0x26, []⟩).w.status = some 400 ∧
    (serve ⟨[], 0, 50000000⟩ [] []
      ⟨lit "GET", lit "ip=1.1.1.1" ++ List.replicate 9999 0x26, []⟩).w.status = some 200 :=
  ⟨by decide, by decide, by decide,
   (((c10_first_well_formed_pair ⟨[], 0, 50000000⟩ [] []
      ⟨lit "GET", lit "ip=1.1.1.1&ip=8.8.8.8", []⟩
      ⟨lit "POST", lit "x=%zz&ip=1.1.1.1", lit "ip=9.9.9.9"⟩
      [lit "ip=1.1.1.1", lit "ip=8.8.8.8"] [lit "x=%zz", lit "ip=1.1.1.1"]
      (by decide) (by decide) (by decide) (by decide)).2.2.2.2.2
      (by decide)).2.2 (by decide)).trans (by decide),
   (c10_first_well_formed_pair ⟨[], 0, 50000000⟩ [] []
      ⟨lit "GET", lit "ip=1.1.1.1&ip=8.8.8.8", []⟩
      ⟨lit "POST", lit "x=%zz&ip=1.1.1.1", lit "ip=9.9.9.9"⟩
      [lit "ip=1.1.1.1", lit "ip=8.8.8.8"] [lit "x=%zz", lit "ip=1.1.1.1"]
      (by decide) (by decide) (by decide) (by decide)).2.2.2.1 (by decide),
   ((c10_first_well_formed_pair ⟨[], 0, 50000000⟩ [] []
      ⟨lit "GET", lit "ip=&ip=8.8.8.8", []⟩ ⟨lit "GET", lit "ip=&ip=8.8.8.8", []⟩
      [lit "ip=", lit "ip=8.8.8.8"] [lit "ip=", lit "ip=8.8.8.8"]
      (by decide) (by decide) (by decide) (by decide)).2.2.2.2.1 (by decide)).1,
   ((c10_first_well_formed_pair ⟨[], 0, 50000000⟩ [] []
      ⟨lit "GET", lit "ip=1.1.1.1" ++ List.replicate 10000 0x26, []⟩
      ⟨lit "GET", lit "ip=1.1.1.1" ++ List.replicate 10000 0x26, []⟩
      (lit "ip=1.1.1.1" :: List.replicate 10000 [])
      (lit "ip=1.1.1.1" :: List.replicate 10000 [])
      (joinAmp_replicate 10000 _).symm (joinAmp_replicate 10000 _).symm
      (noAmp_replicate _ 10000 (by decide)) (noAmp_replicate _ 10000 (by decide))).2.2.2.2.1
      (queryValue_over _ _ 10000 (Nat.le_refl _))).1,
   ((c10_first_well_formed_pair ⟨[], 0, 50000000⟩ [] []
      ⟨lit "GET", lit "ip=1.1.1.1" ++ List.replicate 9999 0x26, []⟩
      ⟨lit "GET", lit "ip=1.1.1.1" ++ List.replicate 9999 0x26, []⟩
      (lit "ip=1.1.1.1" :: List.replicate 9999 [])
      (lit "ip=1.1.1.1" :: List.replicate 9999 [])
      (joinAmp_replicate 9999 _).symm (joinAmp_replicate 9999 _).symm
      (noAmp_replicate _ 9999 (by decide)) (noAmp_replicate _ 9999 (by decide))).2.2.2.2.2
      (by
        rw [queryValue_head (lit "ip") (lit "ip=1.1.1.1") (lit "1.1.1.1") 9999 (by decide)
          (by decide)]
        decide)).1⟩

set_option maxRecDepth 100000 in
/-- C10 as stated fails, in three ways. In `?ip=%zz&ip=8.8.8.8` and in
`?ip=1.1.1.1;x&ip=8.8.8.8` the first occurrence of the `ip` key is skipped and the later
one is echoed. In `?ip=%ff&ip=%ef%bf%bd` the first value, the byte `0xFF`, is non-empty
and the `ip_address` of the response is not it but `EF BF BD`. And `?ip=1.1.1.1` followed
by 10000 `&` has a non-empty first value and gets the 400 error. -/
theorem c10_later_occurrence_echoed :
    (serve ⟨[], 0, 50000000⟩ [] [] ⟨lit "GET", lit "ip=%zz&ip=8.8.8.8", []⟩).w.status
      = some 200 ∧
    stringField (lit "ip_address")
      (serve ⟨[], 0, 50000000⟩ [] [] ⟨lit "GET", lit "ip=%zz&ip=8.8.8.8", []⟩).w.body
      = some (lit "8.8.8.8") ∧
    stringField (lit "ip_address")
      (serve ⟨[], 0, 50000000⟩ [] [] ⟨lit "GET", lit "ip=1.1.1.1;x&ip=8.8.8.8", []⟩).w.body
      = some (lit "8.8.8.8") ∧
    stringField (lit "ip_address")
      (serve ⟨[], 0, 50000000⟩ [] [] ⟨lit "GET", lit "ip=%ff&ip=%ef%bf%bd", []⟩).w.body
      = some [0xEF, 0xBF, 0xBD] ∧
    (serve ⟨[], 0, 50000000⟩ [] []
      ⟨lit "GET", lit "ip=1.1.1.1" ++ List.replicate 10000 0x26, []⟩).w.status = some 400 := by
  refine ⟨by decide, by decide, by decide, by decide, ?_⟩
  rw [serve_error _ _ _ _ (Query_Get_over_limit _ _ _ _ 10000 (Nat.le_refl _) (by decide))]

/-! ## Goroutines do not disturb one another -/

theorem OK_spawn (hdr : GoString) (r : Request) (clock : Int) :
    (Goroutine.spawn r).OK hdr r clock := by
  simp [Goroutine.OK, Goroutine.spawn]

theorem OK_tick (hdr : GoString) (r : Request) (clock : Int) (d : Nat) (g : Goroutine)
    (h : g.OK hdr r clock) : g.OK hdr r (clock + d) := by
  obtain ⟨r', pc, ip, st, wk, en, w⟩ := g
  cases pc <;> simp only [Goroutine.OK] at h ⊢ <;> try exact h
  exact ⟨h.1, h.2.1, h.2.2.1, h.2.2.2.1, by have := h.2.2.2.2; omega⟩

theorem OK_step (hdr : GoString) (r : Request) (clock : Int) (stderr : GoString)
    (g : Goroutine) (h : g.OK hdr r clock) : (g.step hdr clock stderr).1.OK hdr r clock := by
  obtain ⟨r', pc, ip, st, wk, en, w⟩ := g
  cases pc <;> simp only [Goroutine.OK] at h
  · -- entry
    obtain ⟨hr, hw⟩ := h
    subst hr hw
    by_cases he : r'.Query.Get (lit "ip") = []
    · simp only [Goroutine.step, he, if_true, Goroutine.OK, true_and]
      rw [serve_error _ _ _ _ he, Error_fresh]
    · simp only [Goroutine.step, he, if_false, Goroutine.OK, true_and]
      exact ⟨rfl, he⟩
  · exact ⟨h.1, h.2⟩
  · obtain ⟨hr, hw, hi, hn⟩ := h
    simp only [Goroutine.step, Goroutine.OK, Millisecond]
    exact ⟨hr, hw, hi, hn, by omega⟩
  · obtain ⟨hr, hw, hi, hn, hk⟩ := h
    by_cases hc : wk ≤ clock
    · simp only [Goroutine.step, hc, if_true, Goroutine.OK]
      exact ⟨hr, hw, hi, hn⟩
    · simp only [Goroutine.step, hc, if_false, Goroutine.OK]
      exact ⟨hr, hw, hi, hn, hk⟩
  · obtain ⟨hr, hw, hi, hn⟩ := h
    subst hr hw
    simp only [Goroutine.step, Goroutine.OK, true_and]
    rw [serve_ok _ _ _ _ hn, Encode_fresh, hi]
    rfl
  · exact h

theorem SysOK_init (hdr : GoString) (clock : Int) (rs : List Request) :
    Sys.OK hdr rs (Sys.init clock rs) := by
  intro i r hr
  refine ⟨Goroutine.spawn r, ?_, OK_spawn hdr r clock⟩
  simp [Sys.init, List.getElem?_map, hr]

theorem SysOK_step (hdr : GoString) (rs : List Request) (sys : Sys) (ev : Event)
    (h : Sys.OK hdr rs sys) : Sys.OK hdr rs (Sys.step hdr sys ev) := by
  intro i r hr
  obtain ⟨g, hg, hok⟩ := h i r hr
  cases ev with
  | tick d => exact ⟨g, hg, OK_tick hdr r sys.clock d g hok⟩
  | run j =>
    simp only [Sys.step]
    cases hj : sys.gs[j]? with
    | none => exact ⟨g, hg, hok⟩
    | some gj =>
      by_cases hij : j = i
      · subst hij
        rw [hg] at hj
        cases hj
        have hlt : j < sys.gs.length := by
          by_contra hcon
          rw [List.getElem?_eq_none (by omega)] at hg
          cases hg
        refine ⟨(g.step hdr sys.clock sys.stderr).1, ?_, OK_step hdr r sys.clock sys.stderr g hok⟩
        simp [List.getElem?_set, hlt]
      · refine ⟨g, ?_, hok⟩
        simp only [List.getElem?_set_ne hij]
        exact hg

theorem SysOK_run (hdr : GoString) (rs : List Request) (schedule : List Event) :
    ∀ sys, Sys.OK hdr rs sys → Sys.OK hdr rs (Sys.run hdr sys schedule) := by
  induction schedule with
  | nil => intro sys h; exact h
  | cons ev evs ih =>
    intro sys h
    exact ih _ (SysOK_step hdr rs sys ev h)

theorem Sys_run_append (hdr : GoString) (sys : Sys) (a b : List Event) :
    Sys.run hdr sys (a ++ b) = Sys.run hdr (Sys.run hdr sys a) b := by
  simp [Sys.run, List.foldl_append]

theorem run_self (hdr : GoString) (sys : Sys) (i : Nat) (g : Goroutine)
    (hg : sys.gs[i]? = some g) :
    (Sys.step hdr sys (.run i)).gs[i]? = some (g.step hdr sys.clock sys.stderr).1 ∧
    (Sys.step hdr sys (.run i)).clock = sys.clock := by
  have hlt : i < sys.gs.length := by
    by_contra hcon
    rw [List.getElem?_eq_none (by omega)] at hg
    cases hg
  simp [Sys.step, hg, List.getElem?_set, hlt]

theorem run_step (hdr : GoString) (sys : Sys) (i : Nat) (g : Goroutine)
    (hg : sys.gs[i]? = some g) :
    ∃ (s2 : Sys) (g2 : Goroutine), Sys.step hdr sys (.run i) = s2 ∧
      s2.gs[i]? = some g2 ∧ s2.clock = sys.clock ∧
      g2 = (g.step hdr sys.clock sys.stderr).1 :=
  ⟨_, _, rfl, (run_self hdr sys i g hg).1, (run_self hdr sys i g hg).2, rfl⟩

theorem tick_step (hdr : GoString) (sys : Sys) :
    ∃ s2 : Sys, Sys.step hdr sys (.tick 50000000) = s2 ∧ s2.gs = sys.gs ∧
      s2.clock = sys.clock + 50000000 :=
  ⟨_, rfl, rfl, by simp [Sys.step]⟩

/-- Three steps, 50 ms and two more steps take a goroutine to the end of the handler. -/
theorem solo_pc_chain (hdr : GoString) (c c1 c2 c4 c5 : Int) (s0 s1 s2 s4 s5 : GoString)
    (g g1 g2 g3 g5 g6 : Goroutine)
    (h : g.pc = .sleeping → g.wake ≤ c + 50000000)
    (hc1 : c1 = c) (hc2 : c2 = c) (hc4 : c4 = c + 50000000) (hc5 : c5 = c + 50000000)
    (e1 : g1 = (g.step hdr c s0).1) (e2 : g2 = (g1.step hdr c1 s1).1)
    (e3 : g3 = (g2.step hdr c2 s2).1) (e5 : g5 = (g3.step hdr c4 s4).1)
    (e6 : g6 = (g5.step hdr c5 s5).1) : g6.pc = .done := by
  subst e6 e5 e3 e2 e1
  rw [hc1, hc2, hc4, hc5]
  obtain ⟨r, pc, ip, st, wk, en, w⟩ := g
  cases pc
  · by_cases he : r.Query.Get (lit "ip") = []
    · simp [Goroutine.step, he]
    · simp [Goroutine.step, he, Millisecond]
  · by_cases hc : c + 50000000 ≤ c
    · omega
    · simp [Goroutine.step, Millisecond]
  · simp [Goroutine.step, Millisecond]
  · simp only [forall_true_left] at h
    by_cases hc : wk ≤ c
    · simp [Goroutine.step, hc]
    · simp [Goroutine.step, hc, h]
  · simp [Goroutine.step]
  · simp [Goroutine.step]

theorem solo_done (hdr : GoString) (sys : Sys) (i : Nat) (g : Goroutine) (r : Request)
    (hg : sys.gs[i]? = some g) (hok : g.OK hdr r sys.clock) :
    ∃ g2 : Goroutine, (Sys.run hdr sys (soloSchedule i)).gs[i]? = some g2 ∧ g2.pc = .done := by
  have hw : g.pc = .sleeping → g.wake ≤ sys.clock + 50000000 := by
    intro hp
    obtain ⟨r', pc, ip, st, wk, en, w⟩ := g
    simp only at hp
    subst hp
    simp only [Goroutine.OK] at hok
    exact hok.2.2.2.2
  have hrun : Sys.run hdr sys (soloSchedule i)
      = Sys.step hdr (Sys.step hdr (Sys.step hdr (Sys.step hdr (Sys.step hdr
          (Sys.step hdr sys (.run i)) (.run i)) (.run i)) (.tick 50000000)) (.run i))
          (.run i) := by
    simp only [Sys.run, soloSchedule, List.foldl_cons, List.foldl_nil]
  rw [hrun]
  obtain ⟨s1, g1, e1, h1, c1, k1⟩ := run_step hdr sys i g hg
  rw [e1]
  obtain ⟨s2, g2, e2, h2, c2, k2⟩ := run_step hdr s1 i g1 h1
  rw [e2]
  obtain ⟨s3, g3, e3, h3, c3, k3⟩ := run_step hdr s2 i g2 h2
  rw [e3]
  obtain ⟨s4, e4, h4, c4⟩ := tick_step hdr s3
  rw [e4]
  rw [← h4] at h3
  obtain ⟨s5, g5, e5, h5, c5, k5⟩ := run_step hdr s4 i g3 h3
  rw [e5]
  obtain ⟨s6, g6, e6, h6, _, k6⟩ := run_step hdr s5 i g5 h5
  rw [e6]
  exact ⟨g6, h6, solo_pc_chain hdr sys.clock s1.clock s2.clock s4.clock s5.clock _ _ _ _ _
    g g1 g2 g3 g5 g6 hw c1 (by rw [c2, c1]) (by rw [c4, c3, c2, c1])
    (by rw [c5, c4, c3, c2, c1]) k1 k2 k3 k5 k6⟩

/-- C8, as amended: requests are handled independently of one another. For any requests,
any initial clock and any interleaving of the goroutines' steps with the passing of time,
the goroutine of request `i` exists and still serves that request, it can always be run to
the end of the handler, and once it is done its response is the one `checkIPHandler` gives
for its own request and its own two clock readings; so when its `ip` is non-empty
well-formed UTF-8 its `ip_address` is its own `ip`, and not the different `ip` of any other
request. -/
theorem c8_independent_requests (hdr : GoString) (clock : Int) (rs : List Request)
    (schedule : List Event) (i : Nat) (r : Request) (hr : rs[i]? = some r) :
    ∃ g : Goroutine,
      (Sys.run hdr (Sys.init clock rs) schedule).gs[i]? = some g ∧ g.r = r ∧
      (∃ g2 : Goroutine,
        (Sys.run hdr (Sys.init clock rs) (schedule ++ soloSchedule i)).gs[i]? = some g2 ∧
        g2.pc = .done) ∧
      (g.pc = .done →
        g.w = (serve ⟨hdr, g.startTime, g.endTime⟩ [] [] r).w ∧
        (r.ip ≠ [] → validUTF8 r.ip = true →
          stringField (lit "ip_address") g.w.body = some r.ip ∧
          ∀ (j : Nat) (r2 : Request), rs[j]? = some r2 → r2.ip ≠ r.ip →
            stringField (lit "ip_address") g.w.body ≠ some r2.ip)) := by
  have hsys := SysOK_run hdr rs schedule _ (SysOK_init hdr clock rs)
  obtain ⟨g, hg, hok⟩ := hsys i r hr
  refine ⟨g, hg, hok.1, ?_, ?_⟩
  · rw [Sys_run_append]
    exact solo_done hdr _ i g r hg hok
  · intro hdone
    have hw : g.w = (serve ⟨hdr, g.startTime, g.endTime⟩ [] [] r).w := by
      obtain ⟨r', pc, ip, st, wk, en, w⟩ := g
      simp only at hdone
      subst hdone
      simp only [Goroutine.OK] at hok
      exact hok.2
    refine ⟨hw, ?_⟩
    intro hne hv
    have he := (serve_echo ⟨hdr, g.startTime, g.endTime⟩ [] [] r hne).2
    have hown : stringField (lit "ip_address") g.w.body = some r.ip := by
      rw [hw, he]
      exact congrArg some (toValidUTF8_of_valid r.ip hv)
    refine ⟨hown, ?_⟩
    intro j r2 _ hdiff
    rw [hown]
    intro hcon
    exact hdiff (Option.some.inj hcon).symm

set_option maxRecDepth 100000 in
/-- C8, an instance: two requests, `?ip=1.1.1.1` and `?ip=8.8.8.8`, served with their
steps interleaved; each response carries the `ip` of its own request. -/
theorem c8_independent_requests_witness :
    [(⟨lit "GET", lit "ip=1.1.1.1", []⟩ : Request), ⟨lit "GET", lit "ip=8.8.8.8", []⟩][0]?
      = some ⟨lit "GET", lit "ip=1.1.1.1", []⟩ ∧
    (∃ g : Goroutine,
      (Sys.run [] (Sys.init 0 [⟨lit "GET", lit "ip=1.1.1.1", []⟩, ⟨lit "GET", lit "ip=8.8.8.8", []⟩])
        [.run 0, .run 1, .run 1, .run 0, .tick 7, .run 0, .run 1, .tick 50000000, .run 1,
         .run 0, .run 0, .tick 5, .run 1]).gs[0]? = some g ∧
      g.r = ⟨lit "GET", lit "ip=1.1.1.1", []⟩ ∧ g.pc = .done) ∧
    (Sys.run [] (Sys.init 0 [⟨lit "GET", lit "ip=1.1.1.1", []⟩, ⟨lit "GET", lit "ip=8.8.8.8", []⟩])
        [.run 0, .run 1, .run 1, .run 0, .tick 7, .run 0, .run 1, .tick 50000000, .run 1,
         .run 0, .run 0, .tick 5, .run 1]).gs.map
      (fun g => (g.pc, stringField (lit "ip_address") g.w.body))
      = [(.done, some (lit "1.1.1.1")), (.done, some (lit "8.8.8.8"))] :=
  ⟨by decide,
   (c8_independent_requests [] 0
      [⟨lit "GET", lit "ip=1.1.1.1", []⟩, ⟨lit "GET", lit "ip=8.8.8.8", []⟩]
      [.run 0, .run 1, .run 1, .run 0, .tick 7, .run 0, .run 1, .tick 50000000, .run 1,
       .run 0, .run 0, .tick 5, .run 1] 0 ⟨lit "GET", lit "ip=1.1.1.1", []⟩ (by decide)).elim
     (fun g hg => ⟨g, hg.1, hg.2.1, by
        have hd : (Sys.run [] (Sys.init 0
            [⟨lit "GET", lit "ip=1.1.1.1", []⟩, ⟨lit "GET", lit "ip=8.8.8.8", []⟩])
            [.run 0, .run 1, .run 1, .run 0, .tick 7, .run 0, .run 1, .tick 50000000, .run 1,
             .run 0, .run 0, .tick 5, .run 1]).gs[0]?.map (fun g => g.pc) = some .done := by
          decide
        rw [hg.1] at hd
        exact Option.some.inj hd⟩),
   by decide⟩

set_option maxRecDepth 100000 in
/-- C8 as stated fails: of the two requests `?ip=%ff` and `?ip=%ef%bf%bd`, whose `ip`
values differ, the response to the first does not echo its own `ip`, the byte `0xFF`: its
`ip_address` is the `ip` of the second request. -/
theorem c8_other_ip_in_response :
    (⟨lit "GET", lit "ip=%ff", []⟩ : Request).ip = [0xFF] ∧
    (⟨lit "GET", lit "ip=%ef%bf%bd", []⟩ : Request).ip = [0xEF, 0xBF, 0xBD] ∧
    (Sys.run [] (Sys.init 0 [⟨lit "GET", lit "ip=%ff", []⟩, ⟨lit "GET", lit "ip=%ef%bf%bd", []⟩])
        [.run 0, .run 1, .run 1, .run 0, .run 0, .run 1, .tick 50000000, .run 1, .run 0,
         .run 0, .run 1]).gs.map
      (fun g => (g.pc, stringField (lit "ip_address") g.w.body))
      = [(.done, some [0xEF, 0xBF, 0xBD]), (.done, some [0xEF, 0xBF, 0xBD])] := by
  decide

end ProxyTracker
